import Mathlib

/-!
Shallow embedding of the crawlscrap crawler core (TypeScript sources under
`src/server/services` and companion modules), together with theorems settling
the specification claims about the URL queue, rate limiter, circuit breaker,
retry controller, change detection, robots.txt evaluation, language detection
and the streaming result writer.

Conventions of the embedding:
* JavaScript `Map`/`Set` objects are modelled as insertion-ordered association
  lists / lists without duplicates, with `Map.set`, `Map.delete`, `Set.add`,
  `Set.delete` given their JS semantics.
* `Date.now()` timestamps are explicit `Int` parameters.
* JS numbers that carry fractional information (delays, jitter, averages) are
  modelled as `Rat`; `Math.round` is Mathlib `round`, `Math.min`/`max` are
  `min`/`max`.
* Browser/OS capabilities (URL host extraction, MD5) are function parameters.
-/

namespace CrawlScrap

/-! ### Shared helpers: JS string primitives -/

/-- Character-wise lower casing as performed by `String.prototype.toLowerCase`
on the Basic Latin and Latin-1 ranges (the only ranges the embedded pattern
lists use). -/
def jsToLower (c : Char) : Char :=
  if 'A' ≤ c ∧ c ≤ 'Z' then Char.ofNat (c.toNat + 32)
  else if 0xC0 ≤ c.toNat ∧ c.toNat ≤ 0xDE ∧ c.toNat ≠ 0xD7 then Char.ofNat (c.toNat + 32)
  else c

/-- `s.toLowerCase()`. -/
def toLowerStr (s : String) : String := String.mk (s.data.map jsToLower)

/-- Does `hay` begin with `needle` (list-of-characters form)? -/
def startsWithList (needle hay : List Char) : Bool :=
  match needle, hay with
  | [], _ => true
  | _ :: _, [] => false
  | a :: as, b :: bs => a == b && startsWithList as bs

/-- `hay.includes(needle)` on character lists. -/
def containsSubList (needle : List Char) : List Char → Bool
  | [] => startsWithList needle []
  | c :: rest => startsWithList needle (c :: rest) || containsSubList needle rest

/-- `hay.includes(needle)` for strings. -/
def containsSub (hay needle : String) : Bool := containsSubList needle.data hay.data

/-! ### Shared helpers: association lists with JS `Map` semantics -/

/-- `map.get(k)`. -/
def alGet {α : Type} (l : List (String × α)) (k : String) : Option α :=
  (l.find? (fun p => p.1 == k)).map (fun p => p.2)

/-- `map.set(k, v)`: replaces the value in place when the key is present,
otherwise appends (JS `Map` keeps insertion order). -/
def alSet {α : Type} (l : List (String × α)) (k : String) (v : α) : List (String × α) :=
  if (l.find? (fun p => p.1 == k)).isSome then
    l.map (fun p => if p.1 == k then (k, v) else p)
  else l ++ [(k, v)]

/-- `set.add(x)` for a JS `Set` modelled as a duplicate-free list. -/
def setAdd (l : List String) (x : String) : List String :=
  if l.contains x then l else l ++ [x]

/-- `set.delete(x)`. -/
def setDelete (l : List String) (x : String) : List String :=
  l.filter (fun y => y ≠ x)

/-! ### Shared helpers: decimal rendering of JS numbers (integral case) -/

/-- Decimal digit character. -/
def digitChar (n : Nat) : Char := Char.ofNat (48 + n)

/-- Most-significant-first digit list of `n`, empty for `0`. -/
def digitsAux : Nat → List Char
  | 0 => []
  | n + 1 => digitsAux ((n + 1) / 10) ++ [digitChar ((n + 1) % 10)]
decreasing_by exact Nat.div_lt_self (Nat.succ_pos n) (by norm_num)

/-- `String(n)` for a non-negative integral JS number. -/
def natToString (n : Nat) : String :=
  if n = 0 then "0" else String.mk (digitsAux n)

end CrawlScrap

namespace CrawlScrap.UrlQueue

/-! ### URL Queue (`src/server/services/urlQueue.ts`)

The queue `Map<string, QueuedUrl>` is modelled as an insertion-ordered list of
`QueuedUrl` entries keyed by their `url` field; `processed` and `inProgress`
are JS `Set`s modelled as duplicate-free lists.  `new URL(url).hostname` is the
function parameter `getDomain`. -/

structure QueuedUrl where
  url : String
  depth : Nat
  parentUrl : Option String
  domain : String
  priority : Int
  addedAt : Int
deriving Repr, DecidableEq

structure UrlQueueConfig where
  maxSize : Nat
  batchSize : Nat
  domainBatchSize : Nat
  priorityBoost : Nat
deriving Repr, DecidableEq

def defaultConfig : UrlQueueConfig :=
  { maxSize := 500000, batchSize := 50, domainBatchSize := 10, priorityBoost := 5 }

structure Stats where
  added : Nat
  duplicates : Nat
  processed : Nat
  failed : Nat
deriving Repr, DecidableEq

structure QState where
  queue : List QueuedUrl
  domainQueues : List (String × List String)
  processed : List String
  inProgress : List String
  isComplete : Bool
  stats : Stats
deriving Repr, DecidableEq

/-- The freshly constructed queue. -/
def initial : QState :=
  { queue := [], domainQueues := [], processed := [], inProgress := [],
    isComplete := false,
    stats := { added := 0, duplicates := 0, processed := 0, failed := 0 } }

/-- `this.queue.has(url)`. -/
def queueHas (q : List QueuedUrl) (url : String) : Bool :=
  q.any (fun e => e.url == url)

/-- `this.queue.set(url, entry)`. -/
def queueSet (q : List QueuedUrl) (e : QueuedUrl) : List QueuedUrl :=
  if queueHas q e.url then q.map (fun x => if x.url == e.url then e else x)
  else q ++ [e]

/-- `this.queue.delete(url)`. -/
def queueDelete (q : List QueuedUrl) (url : String) : List QueuedUrl :=
  q.filter (fun e => e.url ≠ url)

/-- `this.queue.get(url)`. -/
def queueGet (q : List QueuedUrl) (url : String) : Option QueuedUrl :=
  q.find? (fun e => e.url == url)

/-- The URLs currently queued (the key set of the queue map). -/
def urls (s : QState) : List String := s.queue.map (fun e => e.url)

/-- `UrlQueue.add(url, depth, parentUrl, priority = depth)`. -/
def add (getDomain : String → String) (cfg : UrlQueueConfig) (now : Int)
    (s : QState) (url : String) (depth : Nat) (parentUrl : Option String)
    (priority : Int) : Bool × QState :=
  if s.processed.contains url || queueHas s.queue url || s.inProgress.contains url then
    (false, { s with stats := { s.stats with duplicates := s.stats.duplicates + 1 } })
  else if s.queue.length ≥ cfg.maxSize then
    (false, s)
  else
    let domain := getDomain url
    let entry : QueuedUrl :=
      { url := url, depth := depth, parentUrl := parentUrl, domain := domain,
        priority := priority, addedAt := now }
    let old := (alGet s.domainQueues domain).getD []
    (true,
      { s with
        queue := queueSet s.queue entry,
        domainQueues := alSet s.domainQueues domain (old ++ [url]),
        stats := { s.stats with added := s.stats.added + 1 } })

/-- Loop state of `getBatch`. -/
structure BatchAcc where
  batch : List QueuedUrl
  domainsInBatch : List (String × Nat)
  queue : List QueuedUrl
  inProgress : List String
deriving Repr, DecidableEq

/-- The `for (const queuedUrl of sortedUrls)` loop body of `getBatch`. -/
def getBatchGo (cfg : UrlQueueConfig) : List QueuedUrl → BatchAcc → BatchAcc
  | [], acc => acc
  | q :: rest, acc =>
    if acc.batch.length ≥ cfg.batchSize then acc
    else
      let domainCount := (alGet acc.domainsInBatch q.domain).getD 0
      if domainCount ≥ cfg.domainBatchSize then getBatchGo cfg rest acc
      else
        getBatchGo cfg rest
          { batch := acc.batch ++ [q],
            domainsInBatch := alSet acc.domainsInBatch q.domain (domainCount + 1),
            queue := queueDelete acc.queue q.url,
            inProgress := setAdd acc.inProgress q.url }

/-- `UrlQueue.getBatch()`: priority sort (JS `Array.sort` is stable, modelled
by `mergeSort`), domain-capped selection, move to in-progress. -/
def getBatch (cfg : UrlQueueConfig) (s : QState) : List QueuedUrl × QState :=
  if s.queue.length = 0 then ([], s)
  else
    let sorted := s.queue.mergeSort (fun a b => a.priority ≤ b.priority)
    let acc := getBatchGo cfg sorted
      { batch := [], domainsInBatch := [], queue := s.queue, inProgress := s.inProgress }
    (acc.batch, { s with queue := acc.queue, inProgress := acc.inProgress })

/-- `UrlQueue.complete(url)`. -/
def complete (s : QState) (url : String) : QState :=
  { s with
    inProgress := setDelete s.inProgress url,
    processed := setAdd s.processed url,
    stats := { s.stats with processed := s.stats.processed + 1 } }

/-- `UrlQueue.fail(url, retry = false)`. -/
def fail (getDomain : String → String) (now : Int) (s : QState) (url : String)
    (retry : Bool) : QState :=
  let s1 := { s with
    inProgress := setDelete s.inProgress url,
    stats := { s.stats with failed := s.stats.failed + 1 } }
  if retry then
    let entry : QueuedUrl :=
      { url := url, depth := 0, parentUrl := none, domain := getDomain url,
        priority := 100, addedAt := now }
    { s1 with queue := queueSet s1.queue entry }
  else s1

/-- `UrlQueue.markDiscoveryComplete()`. -/
def markDiscoveryComplete (s : QState) : QState := { s with isComplete := true }

/-- `UrlQueue.isFinished()`. -/
def isFinished (s : QState) : Bool :=
  s.isComplete && s.queue.length == 0 && s.inProgress.length == 0

/-- States reachable by the queue operations under the crawl-engine protocol:
`complete` and `fail` are only invoked on URLs currently in progress. -/
inductive Reach (getDomain : String → String) (cfg : UrlQueueConfig) : QState → Prop
  | init : Reach getDomain cfg initial
  | add (s : QState) (url : String) (depth : Nat) (parentUrl : Option String)
      (priority now : Int) : Reach getDomain cfg s →
      Reach getDomain cfg (add getDomain cfg now s url depth parentUrl priority).2
  | getBatch (s : QState) : Reach getDomain cfg s →
      Reach getDomain cfg (getBatch cfg s).2
  | complete (s : QState) (url : String) : Reach getDomain cfg s →
      url ∈ s.inProgress → Reach getDomain cfg (complete s url)
  | fail (s : QState) (url : String) (retry : Bool) (now : Int) :
      Reach getDomain cfg s → url ∈ s.inProgress →
      Reach getDomain cfg (fail getDomain now s url retry)
  | markDiscoveryComplete (s : QState) : Reach getDomain cfg s →
      Reach getDomain cfg (markDiscoveryComplete s)

/-- The three sets keyed by URL are pairwise disjoint, and the queue map has
no duplicate keys. -/
def Inv (s : QState) : Prop :=
  (urls s).Nodup ∧
  (∀ u ∈ urls s, u ∉ s.inProgress ∧ u ∉ s.processed) ∧
  (∀ u ∈ s.inProgress, u ∉ s.processed)

/-- The disjointness invariant restricted to the loop state of `getBatch`,
relative to the untouched processed set. -/
def AccInv (processed : List String) (acc : BatchAcc) : Prop :=
  (acc.queue.map (fun e => e.url)).Nodup ∧
  (∀ u ∈ acc.queue.map (fun e => e.url), u ∉ acc.inProgress ∧ u ∉ processed) ∧
  (∀ u ∈ acc.inProgress, u ∉ processed)

end CrawlScrap.UrlQueue

namespace CrawlScrap.RateLimiter

/-! ### Rate limiter (rateLimiter service source file)

The per-domain `DomainState` of one host is modelled directly; the robots.txt
verdict `isUrlAllowed(url)` for that host is the boolean parameter
`robotsAllowed`.  `sleep` is not observable in the state, so `acquireSlot`
composes the check with `recordRequestStart` exactly as the source does. -/

structure DomainState where
  domain : String
  lastRequestTime : Int
  delayMs : Int
  concurrentRequests : Nat
  totalRequests : Nat
  blockedRequests : Nat
deriving Repr, DecidableEq

structure RateLimitConfig where
  maxConcurrentPerDomain : Nat
deriving Repr, DecidableEq

structure RateLimitResult where
  allowed : Bool
  waitMs : Int
  reason : Option String
deriving Repr, DecidableEq

/-- Fresh state created by `getDomainState` (`lastRequestTime: 0`, counters
zero, `delayMs` fetched from robots.txt). -/
def initState (domain : String) (delayMs : Int) : DomainState :=
  { domain := domain, lastRequestTime := 0, delayMs := delayMs,
    concurrentRequests := 0, totalRequests := 0, blockedRequests := 0 }

/-- `checkRateLimit(url)` for one host. -/
def checkRateLimit (cfg : RateLimitConfig) (robotsAllowed : Bool) (now : Int)
    (st : DomainState) : RateLimitResult × DomainState :=
  if !robotsAllowed then
    ({ allowed := false, waitMs := 0, reason := some "Blocked by robots.txt" },
     { st with blockedRequests := st.blockedRequests + 1 })
  else
    let timeSinceLastRequest := now - st.lastRequestTime
    if st.concurrentRequests ≥ cfg.maxConcurrentPerDomain then
      ({ allowed := true, waitMs := st.delayMs,
         reason := some "Concurrent request limit reached" }, st)
    else if timeSinceLastRequest < st.delayMs then
      ({ allowed := true, waitMs := st.delayMs - timeSinceLastRequest,
         reason := some "Rate limit delay" }, st)
    else
      ({ allowed := true, waitMs := 0, reason := none }, st)

/-- `recordRequestStart(url)`. -/
def recordRequestStart (now : Int) (st : DomainState) : DomainState :=
  { st with concurrentRequests := st.concurrentRequests + 1,
            totalRequests := st.totalRequests + 1,
            lastRequestTime := now }

/-- `recordRequestEnd(url)`; `Math.max(0, c - 1)` is truncated `Nat`
subtraction. -/
def recordRequestEnd (st : DomainState) : DomainState :=
  { st with concurrentRequests := st.concurrentRequests - 1 }

/-- `acquireSlot(url)`: `waitForRateLimit` (check, then sleep `waitMs`)
followed by `recordRequestStart`.  `nowStart` is the clock reading inside
`recordRequestStart`, after any sleep. -/
def acquireSlot (cfg : RateLimitConfig) (robotsAllowed : Bool)
    (now nowStart : Int) (st : DomainState) : Bool × DomainState :=
  let checked := checkRateLimit cfg robotsAllowed now st
  if !checked.1.allowed then (false, checked.2)
  else (true, recordRequestStart nowStart checked.2)

/-- `releaseSlot(url)`. -/
def releaseSlot (st : DomainState) : DomainState := recordRequestEnd st

end CrawlScrap.RateLimiter

namespace CrawlScrap.CircuitBreaker

/-! ### Circuit breaker (`src/server/services/circuitBreaker.ts`)

One host circuit; `Date.now()` is the explicit `now` argument. -/

inductive CircuitState
  | CLOSED
  | OPEN
  | HALF_OPEN
deriving Repr, DecidableEq

structure DomainCircuit where
  domain : String
  state : CircuitState
  failures : List Int
  successes : Nat
  lastFailure : Option Int
  lastStateChange : Int
  totalFailures : Nat
  totalSuccesses : Nat
  totalBlocked : Nat
deriving Repr, DecidableEq

structure CircuitBreakerConfig where
  enabled : Bool
  failureThreshold : Nat
  failureWindowMs : Int
  resetTimeoutMs : Int
  successThreshold : Nat
deriving Repr, DecidableEq

structure CircuitCheckResult where
  allowed : Bool
  state : CircuitState
  reason : Option String
deriving Repr, DecidableEq

/-- `getCircuit` for a not-yet-tracked domain. -/
def initCircuit (domain : String) (now : Int) : DomainCircuit :=
  { domain := domain, state := .CLOSED, failures := [], successes := 0,
    lastFailure := none, lastStateChange := now, totalFailures := 0,
    totalSuccesses := 0, totalBlocked := 0 }

/-- `cleanupFailures(circuit, config)`. -/
def cleanupFailures (cfg : CircuitBreakerConfig) (now : Int)
    (c : DomainCircuit) : DomainCircuit :=
  { c with failures := c.failures.filter (fun ts => ts > now - cfg.failureWindowMs) }

/-- `checkCircuit(url)` acting on the circuit of the URL host. -/
def checkCircuit (cfg : CircuitBreakerConfig) (now : Int) (c : DomainCircuit) :
    CircuitCheckResult × DomainCircuit :=
  if !cfg.enabled then ({ allowed := true, state := .CLOSED, reason := none }, c)
  else
    let c := cleanupFailures cfg now c
    if c.state = .CLOSED then
      ({ allowed := true, state := .CLOSED, reason := none }, c)
    else if c.state = .OPEN then
      let timeSinceStateChange := now - c.lastStateChange
      if timeSinceStateChange ≥ cfg.resetTimeoutMs then
        ({ allowed := true, state := .HALF_OPEN, reason := none },
         { c with state := .HALF_OPEN, successes := 0, lastStateChange := now })
      else
        ({ allowed := false, state := .OPEN,
           reason := some ("Circuit open for " ++ c.domain ++ ", resets in " ++
             natToString (((cfg.resetTimeoutMs - timeSinceStateChange + 500) / 1000).toNat) ++ "s") },
         { c with totalBlocked := c.totalBlocked + 1 })
    else
      ({ allowed := true, state := .HALF_OPEN, reason := none }, c)

/-- `recordSuccess(url)`. -/
def recordSuccess (cfg : CircuitBreakerConfig) (now : Int) (c : DomainCircuit) :
    DomainCircuit :=
  if !cfg.enabled then c
  else
    let c := { c with totalSuccesses := c.totalSuccesses + 1 }
    if c.state = .HALF_OPEN then
      let c := { c with successes := c.successes + 1 }
      if c.successes ≥ cfg.successThreshold then
        { c with state := .CLOSED, failures := [], successes := 0,
                 lastStateChange := now }
      else c
    else c

/-- `n` consecutive `recordSuccess` calls, the `k`-th at time `times k`. -/
def recordSuccessN (cfg : CircuitBreakerConfig) (times : Nat → Int) :
    Nat → DomainCircuit → DomainCircuit
  | 0, c => c
  | n + 1, c => recordSuccess cfg (times n) (recordSuccessN cfg times n c)

/-- `recordFailure(url)`. -/
def recordFailure (cfg : CircuitBreakerConfig) (now : Int) (c : DomainCircuit) :
    DomainCircuit :=
  if !cfg.enabled then c
  else
    let c := { c with failures := c.failures ++ [now], lastFailure := some now,
                      totalFailures := c.totalFailures + 1 }
    let c := cleanupFailures cfg now c
    if c.state = .CLOSED then
      if c.failures.length ≥ cfg.failureThreshold then
        { c with state := .OPEN, lastStateChange := now }
      else c
    else if c.state = .HALF_OPEN then
      { c with state := .OPEN, successes := 0, lastStateChange := now }
    else c

end CrawlScrap.CircuitBreaker

namespace CrawlScrap.Retry

/-! ### Retry controller (retry service source file, `src/server/config/retry.ts`)

The wrapped async operation is a function from the (1-based) attempt number to
`Except String α`; `Math.random()` draws are the stream `rand`, and the
`sleep(delay)` calls are recorded in the result as the `sleeps` list. -/

structure ErrorClassification where
  isRetryable : Bool
  errorType : String
  reason : String
deriving Repr, DecidableEq

structure RetryConfig where
  maxRetries : Nat
  initialDelayMs : Rat
  maxDelayMs : Rat
  backoffMultiplier : Rat
  jitter : Rat
  retryableStatusCodes : List Nat
  transientErrorPatterns : List String
deriving Repr, DecidableEq

/-- `RETRYABLE_STATUS_CODES` from `src/server/config/retry.ts`. -/
def RETRYABLE_STATUS_CODES : List Nat :=
  [408, 429, 500, 502, 503, 504, 520, 521, 522, 523, 524]

/-- `TRANSIENT_ERROR_PATTERNS` from `src/server/config/retry.ts`. -/
def TRANSIENT_ERROR_PATTERNS : List String :=
  ["timeout", "ETIMEDOUT", "ECONNRESET", "ECONNREFUSED", "ENOTFOUND",
   "ENETUNREACH", "EAI_AGAIN", "socket hang up", "network error", "net::ERR_",
   "Navigation timeout", "Timeout exceeded", "Target closed", "Protocol error",
   "Connection closed", "read ECONNRESET"]

/-- The hard-coded permanent pattern list inside `classifyError`. -/
def permanentPatterns : List String :=
  ["not found", "404", "forbidden", "403", "unauthorized", "401",
   "invalid url", "malformed", "robots.txt", "blocked"]

/-- `classifyError(error, statusCode?)`. -/
def classifyError (cfg : RetryConfig) (errorMessage : String)
    (statusCode : Option Nat) : ErrorClassification :=
  let lowerMessage := toLowerStr errorMessage
  match statusCode with
  | some code =>
    if cfg.retryableStatusCodes.contains code then
      { isRetryable := true, errorType := "transient",
        reason := "HTTP " ++ natToString code ++ " is retryable" }
    else if 400 ≤ code ∧ code < 500 then
      { isRetryable := false, errorType := "permanent",
        reason := "HTTP " ++ natToString code ++ " is a client error" }
    else
      classifyErrorByMessage cfg lowerMessage
  | none => classifyErrorByMessage cfg lowerMessage
where
  /-- The message-pattern part of `classifyError` (shared by both status-code
  branches). -/
  classifyErrorByMessage (cfg : RetryConfig) (lowerMessage : String) :
      ErrorClassification :=
    match cfg.transientErrorPatterns.find?
        (fun p => containsSub lowerMessage (toLowerStr p)) with
    | some p =>
      { isRetryable := true, errorType := "transient",
        reason := "Error matches transient pattern: " ++ p }
    | none =>
      match permanentPatterns.find? (fun p => containsSub lowerMessage p) with
      | some p =>
        { isRetryable := false, errorType := "permanent",
          reason := "Error matches permanent pattern: " ++ p }
      | none =>
        { isRetryable := true, errorType := "unknown",
          reason := "Unknown error type, assuming retryable" }

/-- `calculateRetryDelay(attempt, config)`; `r` is the `Math.random()` draw
(in `[0, 1)`). -/
def calculateRetryDelay (cfg : RetryConfig) (attempt : Nat) (r : Rat) : Int :=
  let delay := cfg.initialDelayMs * cfg.backoffMultiplier ^ attempt
  let delay := min delay cfg.maxDelayMs
  let delay :=
    if cfg.jitter > 0 then
      let jitterRange := delay * cfg.jitter
      let jitterOffset := (r * 2 - 1) * jitterRange
      max 0 (delay + jitterOffset)
    else delay
  round delay

structure RetryResult (α : Type) where
  success : Bool
  result : Option α
  error : Option String
  attempts : Nat
  sleeps : List Int
deriving Repr, DecidableEq

/-- The `while (attempts <= config.maxRetries)` loop of `withRetry`.
`remaining` is the number of loop iterations still permitted
(`maxRetries + 1 - attempts`); `sleeps` accumulates the backoff sleeps. -/
def withRetryGo {α : Type} (cfg : RetryConfig) (op : Nat → Except String α)
    (rand : Nat → Rat) : Nat → Nat → List Int → Option String → RetryResult α
  | 0, attempts, sleeps, lastError =>
    { success := false, result := none,
      error := some (lastError.getD "Unknown error"),
      attempts := attempts, sleeps := sleeps }
  | remaining + 1, attempts, sleeps, _ =>
    let attempts := attempts + 1
    match op attempts with
    | .ok v =>
      { success := true, result := some v, error := none,
        attempts := attempts, sleeps := sleeps }
    | .error msg =>
      let classification := classifyError cfg msg none
      if !classification.isRetryable then
        { success := false, result := none, error := some msg,
          attempts := attempts, sleeps := sleeps }
      else if remaining = 0 then
        { success := false, result := none, error := some msg,
          attempts := attempts, sleeps := sleeps }
      else
        let delay := calculateRetryDelay cfg (attempts - 1) (rand attempts)
        withRetryGo cfg op rand remaining attempts (sleeps ++ [delay]) (some msg)

/-- `withRetry(operation, options)`. -/
def withRetry {α : Type} (cfg : RetryConfig) (op : Nat → Except String α)
    (rand : Nat → Rat) : RetryResult α :=
  withRetryGo cfg op rand (cfg.maxRetries + 1) 0 [] none

end CrawlScrap.Retry

namespace CrawlScrap.ChangeDetection

/-! ### Change detection (`src/server/services/changeDetection.ts`)

MD5 is the function parameter `md5`; ISO timestamps are modelled by the
epoch-milliseconds integers they denote. -/

structure PageFingerprint where
  url : String
  contentHash : String
  structureHash : String
  etag : Option String
  lastModified : Option String
  lastCrawled : Int
  changeCount : Nat
  crawlCount : Nat
  avgTimeBetweenChanges : Rat
deriving Repr, DecidableEq

/-- The canonicalised structure summary hashed by `hashStructure`. -/
structure StructureSummary where
  linkCount : Nat
  headingCount : Nat
  linkSample : List String
  headingSample : List String
deriving Repr, DecidableEq

/-- `hashStructure(links, headings)` up to the final MD5, which is the
parameter `md5` applied to a canonical rendering of the summary. -/
def structureSummary (links headings : List String) : StructureSummary :=
  { linkCount := links.length, headingCount := headings.length,
    linkSample := (links.take 10).mergeSort (fun a b => decide (a ≤ b)),
    headingSample := headings.take 10 }

/-- `updateFingerprint(url, content, links, headings, etag, lastModified)`
acting on the fingerprint map.  Returns `hasChanged` and the updated map. -/
def updateFingerprint (md5 : String → String)
    (md5Structure : StructureSummary → String) (now : Int)
    (fingerprints : List (String × PageFingerprint)) (url content : String)
    (links headings : List String) (etag lastModified : Option String) :
    Bool × List (String × PageFingerprint) :=
  let contentHash := md5 content
  let structureHash := md5Structure (structureSummary links headings)
  let existing := alGet fingerprints url
  let hasChanged :=
    match existing with
    | some e => contentHash != e.contentHash || structureHash != e.structureHash
    | none => true
  let changeCount : Nat :=
    match existing with
    | some e => e.changeCount + (if hasChanged then 1 else 0)
    | none => 0
  let avgTimeBetweenChanges : Rat :=
    match existing with
    | some e =>
      if changeCount > 0 then ((now - e.lastCrawled : Int) : Rat) / (changeCount : Rat)
      else 0
    | none => 0
  let fingerprint : PageFingerprint :=
    { url := url, contentHash := contentHash, structureHash := structureHash,
      etag := etag, lastModified := lastModified, lastCrawled := now,
      changeCount := changeCount,
      crawlCount := ((existing.map (fun e => e.crawlCount)).getD 0) + 1,
      avgTimeBetweenChanges := avgTimeBetweenChanges }
  (hasChanged, alSet fingerprints url fingerprint)

end CrawlScrap.ChangeDetection

namespace CrawlScrap.RobotsTxt

/-! ### robots.txt evaluation (robotsTxt service source file)

`pathMatches` compiles a wildcard pattern to the JS regex
`'^' + pattern.replace(/\x2a/g, '.*') + (pattern.endsWith('$') ? '' : '.*')`;
the compiled form is a list of `RItem`s matched against the path with the
regex semantics of literal characters, `.*` and the `$` end anchor. -/

inductive RItem
  | lit (c : Char)
  | dotStar
  | endAnchor
deriving Repr, DecidableEq

/-- Item list of the regex `pathMatches` builds for a wildcard pattern. -/
def toRegexItems (pattern : String) : List RItem :=
  pattern.data.map
    (fun c => if c = '*' then .dotStar else if c = '$' then .endAnchor else .lit c) ++
  (if pattern.endsWith "$" then [] else [.dotStar])

/-- `regex.test(path)` for a `^`-anchored item list: does some prefix of the
character list match the items? -/
def reMatch : List RItem → List Char → Bool
  | [], _ => true
  | .lit _ :: _, [] => false
  | .lit c :: ps, d :: s => c == d && reMatch ps s
  | .dotStar :: ps, [] => reMatch ps []
  | .dotStar :: ps, d :: s => reMatch ps (d :: s) || reMatch (.dotStar :: ps) s
  | .endAnchor :: ps, s => s.isEmpty && reMatch ps s

/-- `pathMatches(path, pattern)`; `path.startsWith(pattern)` is the
character-level prefix test. -/
def pathMatches (path pattern : String) : Bool :=
  if pattern.isEmpty then false
  else if pattern.data.contains '*' then reMatch (toRegexItems pattern) path.data
  else startsWithList pattern.data path.data

structure RobotsTxtRules where
  domain : String
  crawlDelay : Option Rat
  disallowedPaths : List String
  allowedPaths : List String
  sitemaps : List String
deriving Repr, DecidableEq

/-- `isUrlAllowed(url)` once the rules for the URL host are fetched and the
URL parsed; `path` is `urlObj.pathname + urlObj.search`. -/
def isUrlAllowed (respectRobotsTxt : Bool) (rules : RobotsTxtRules)
    (path : String) : Bool :=
  if !respectRobotsTxt then true
  else if rules.allowedPaths.any (fun p => pathMatches path p) then true
  else if rules.disallowedPaths.any (fun p => pathMatches path p) then false
  else true

end CrawlScrap.RobotsTxt

namespace CrawlScrap.Scraper

/-! ### Language detection (scraper source file)

`new RegExp('\x5cb' + word + '\x5cb', 'gi')` match counting: a JS word
boundary holds between two positions exactly when one side is a word
character `[A-Za-z0-9_]` and the other is not (string ends count as
non-word). -/

/-- JS regex word character (`\w`). -/
def isWordChar (c : Char) : Bool :=
  ('a' ≤ c ∧ c ≤ 'z') || ('A' ≤ c ∧ c ≤ 'Z') || ('0' ≤ c ∧ c ≤ '9') || c = '_'

/-- `\w` test on an optional character; the ends of the string behave as
non-word. -/
def isWordCharOpt : Option Char → Bool
  | none => false
  | some c => isWordChar c

/-- Non-overlapping global count of word-boundary-delimited occurrences of
the non-empty word `w0 :: wrest`, scanning left to right; `prev` is the
character before the current position.  The `fuel` argument (instantiated
with the text length, an upper bound on the number of scan steps) keeps the
recursion structural. -/
def countOccGo (w0 : Char) (wrest : List Char) :
    Nat → Option Char → List Char → Nat
  | 0, _, _ => 0
  | _ + 1, _, [] => 0
  | fuel + 1, prev, c :: rest =>
    if startsWithList (w0 :: wrest) (c :: rest)
        && (isWordCharOpt prev != isWordChar w0)
        && (isWordChar ((w0 :: wrest).getLast (by simp))
            != isWordCharOpt (rest.drop wrest.length).head?) then
      1 + countOccGo w0 wrest fuel ((w0 :: wrest).getLast?) (rest.drop wrest.length)
    else
      countOccGo w0 wrest fuel (some c) rest

/-- `lowerText.match(regex)?.length ?? 0` for the pattern
`\b` ++ word ++ `\b`. -/
def countMatches (lowerText word : String) : Nat :=
  match word.data with
  | [] => 0
  | w0 :: wrest => countOccGo w0 wrest lowerText.data.length none lowerText.data

/-- `languagePatterns` of `detectLanguage`, in object insertion order. -/
def languagePatterns : List (String × List String) :=
  [("en", ["the", "is", "are", "was", "were", "have", "has", "been", "will",
           "would", "could", "should", "and", "but", "or", "for", "with"]),
   ("es", ["el", "la", "los", "las", "es", "son", "está", "están", "tiene",
           "tienen", "y", "pero", "para", "con", "que", "de"]),
   ("fr", ["le", "la", "les", "est", "sont", "avoir", "été", "pour", "avec",
           "que", "dans", "sur", "ce", "cette", "et"]),
   ("de", ["der", "die", "das", "ist", "sind", "haben", "wurde", "werden",
           "und", "aber", "für", "mit", "auf", "bei"]),
   ("pt", ["o", "a", "os", "as", "é", "são", "tem", "para", "com", "que",
           "de", "em", "por", "uma", "um"]),
   ("it", ["il", "la", "i", "le", "è", "sono", "ha", "per", "con", "che",
           "di", "in", "una", "un"])]

/-- The per-language scores computed by `detectLanguage`, in iteration
order. -/
def languageScores (text : String) : List (String × Nat) :=
  let lowerText := toLowerStr text
  languagePatterns.map
    (fun p => (p.1, (p.2.map (fun w => countMatches lowerText w)).sum))

/-- The `score > maxScore` selection loop of `detectLanguage`. -/
def selectLoop (scores : List (String × Nat)) : Nat × String :=
  scores.foldl (fun acc p => if p.2 > acc.1 then (p.2, p.1) else acc) (0, "en")

/-- The whitespace set stripped by JS `String.prototype.trim` (ECMA-262
WhiteSpace and LineTerminator code points: TAB, LF, VT, FF, CR, SP, NBSP,
Ogham space mark, the en-quad to hair-space range, LS, PS, NNBSP, MMSP,
ideographic space and ZWNBSP). -/
def jsWhitespace (c : Char) : Bool :=
  c.toNat = 9 || c.toNat = 10 || c.toNat = 11 || c.toNat = 12 ||
  c.toNat = 13 || c.toNat = 32 || c.toNat = 160 || c.toNat = 5760 ||
  (8192 ≤ c.toNat && c.toNat ≤ 8202) ||
  c.toNat = 8232 || c.toNat = 8233 || c.toNat = 8239 || c.toNat = 8287 ||
  c.toNat = 12288 || c.toNat = 65279

/-- `!text || text.trim().length === 0`: the text is empty or consists only
of characters `trim` strips (character-level model of the trim emptiness
test). -/
def isBlankText (text : String) : Bool :=
  text.data.all jsWhitespace

/-- `detectLanguage(text)`. -/
def detectLanguage (text : String) : String :=
  if isBlankText text then "unknown"
  else
    let selected := selectLoop (languageScores text)
    if selected.1 > 0 then selected.2 else "en"

/-- Specification-side selection rule (for the refinement theorem): the
maximum of the scores, taken as `0` when below every score. -/
def maxScoreSpec (scores : List (String × Nat)) : Nat :=
  (scores.map (fun p => p.2)).foldr max 0

/-- Specification-side winner: the first language attaining the maximal
score when that maximum is positive, `en` otherwise. -/
def pickFirstMax (scores : List (String × Nat)) : String :=
  let m := maxScoreSpec scores
  if m > 0 then ((scores.find? (fun p => p.2 == m)).map (fun p => p.1)).getD "en"
  else "en"

end CrawlScrap.Scraper

namespace CrawlScrap.StreamingWriter

/-! ### Streaming writer (`src/server/services/streamingWriter.ts`)

The writer is modelled on the projection of `ScrapedContent` that the claims
and the CSV emitter use (`url`, `title` and the `depth`, `wordCount`,
`language`, `scrapedAt` metadata); `JSON.stringify` of that projection and
its inverse are spelled out character by character.  The write stream is the
accumulated `fileText`. -/

structure SCMetadata where
  depth : Nat
  wordCount : Nat
  language : String
  scrapedAt : String
deriving Repr, DecidableEq

structure ScrapedContent where
  url : String
  title : String
  metadata : SCMetadata
deriving Repr, DecidableEq

/-! #### JSON string escaping (the `JSON.stringify` quoting rules) -/

/-- Lower-case hexadecimal digit. -/
def hexDigit (n : Nat) : Char :=
  if n < 10 then Char.ofNat (48 + n) else Char.ofNat (87 + n)

/-- The four hex digits of a `\u00XX` escape for a control character. -/
def hex4 (n : Nat) : List Char := ['0', '0', hexDigit (n / 16), hexDigit (n % 16)]

/-- Escape of a single character inside a JSON string literal, per
`JSON.stringify`. -/
def escChar (c : Char) : List Char :=
  if c = '"' then ['\\', '"']
  else if c = '\\' then ['\\', '\\']
  else if c = Char.ofNat 8 then ['\\', 'b']
  else if c = '\t' then ['\\', 't']
  else if c = '\n' then ['\\', 'n']
  else if c = Char.ofNat 12 then ['\\', 'f']
  else if c = Char.ofNat 13 then ['\\', 'r']
  else if c.toNat < 32 then '\\' :: 'u' :: hex4 c.toNat
  else [c]

/-- Body of the JSON string literal for `s` (without the delimiters). -/
def jsonEscape (s : String) : List Char := s.data.flatMap escChar

/-- The JSON string literal for `s`, delimiters included. -/
def jsonQuote (s : String) : List Char := '"' :: jsonEscape s ++ ['"']

/-- `JSON.stringify(result)` for the modelled projection (compact form, used
by the `jsonl` branch of `writeResult`). -/
def jsonStringify (r : ScrapedContent) : String :=
  String.mk
    (("\x7b\"url\":".data) ++ jsonQuote r.url ++
     (",\"title\":".data) ++ jsonQuote r.title ++
     (",\"metadata\":\x7b\"depth\":".data) ++ (natToString r.metadata.depth).data ++
     (",\"wordCount\":".data) ++ (natToString r.metadata.wordCount).data ++
     (",\"language\":".data) ++ jsonQuote r.metadata.language ++
     (",\"scrapedAt\":".data) ++ jsonQuote r.metadata.scrapedAt ++
     ("\x7d\x7d".data))

/-! #### Parsing the emitted JSON back (inverse used by the round-trip
claims) -/

/-- Strip an expected literal prefix. -/
def expectLit : List Char → List Char → Option (List Char)
  | [], s => some s
  | _ :: _, [] => none
  | a :: as, b :: bs => if a = b then expectLit as bs else none

/-- Value of one lower-case hex digit. -/
def hexVal (x : Char) : Option Nat :=
  if '0' ≤ x ∧ x ≤ '9' then some (x.toNat - 48)
  else if 'a' ≤ x ∧ x ≤ 'f' then some (x.toNat - 87)
  else none

/-- Parse a JSON string-literal body up to and including the closing quote,
undoing `escChar`. -/
def parseJsonString : List Char → Option (List Char × List Char)
  | [] => none
  | c :: rest =>
    if c = '"' then some ([], rest)
    else if c = '\\' then
      match rest with
      | [] => none
      | e :: rest2 =>
        if e = '"' then (parseJsonString rest2).map (fun p => ('"' :: p.1, p.2))
        else if e = '\\' then (parseJsonString rest2).map (fun p => ('\\' :: p.1, p.2))
        else if e = 'b' then (parseJsonString rest2).map (fun p => (Char.ofNat 8 :: p.1, p.2))
        else if e = 't' then (parseJsonString rest2).map (fun p => ('\t' :: p.1, p.2))
        else if e = 'n' then (parseJsonString rest2).map (fun p => ('\n' :: p.1, p.2))
        else if e = 'f' then (parseJsonString rest2).map (fun p => (Char.ofNat 12 :: p.1, p.2))
        else if e = 'r' then (parseJsonString rest2).map (fun p => (Char.ofNat 13 :: p.1, p.2))
        else if e = 'u' then
          match rest2 with
          | a :: b :: c2 :: d :: rest3 =>
            match hexVal a, hexVal b, hexVal c2, hexVal d with
            | some va, some vb, some vc, some vd =>
              let n := ((va * 16 + vb) * 16 + vc) * 16 + vd
              if n.isValidChar then
                (parseJsonString rest3).map (fun p => (Char.ofNat n :: p.1, p.2))
              else none
            | _, _, _, _ => none
          | _ => none
        else none
    else (parseJsonString rest).map (fun p => (c :: p.1, p.2))
termination_by l => l.length
decreasing_by
  all_goals simp_all
  all_goals omega

/-- Is the character a decimal digit? -/
def isDigitCh (c : Char) : Bool := '0' ≤ c && c ≤ '9'

/-- Parse a run of decimal digits into an accumulator. -/
def parseNatGo (acc : Nat) : List Char → Nat × List Char
  | [] => (acc, [])
  | c :: rest =>
    if isDigitCh c then parseNatGo (acc * 10 + (c.toNat - 48)) rest
    else (acc, c :: rest)

/-- Parse a non-negative decimal number (at least one digit). -/
def parseNat : List Char → Option (Nat × List Char)
  | [] => none
  | c :: rest =>
    if isDigitCh c then some (parseNatGo 0 (c :: rest))
    else none

/-- Inverse of `jsonStringify` on its image: parses one emitted line back
into the record. -/
def decodeRecord (s : List Char) : Option ScrapedContent := do
  let s ← expectLit ("\x7b\"url\":\"".data) s
  let (url, s) ← parseJsonString s
  let s ← expectLit (",\"title\":\"".data) s
  let (title, s) ← parseJsonString s
  let s ← expectLit (",\"metadata\":\x7b\"depth\":".data) s
  let (depth, s) ← parseNat s
  let s ← expectLit (",\"wordCount\":".data) s
  let (wordCount, s) ← parseNat s
  let s ← expectLit (",\"language\":\"".data) s
  let (language, s) ← parseJsonString s
  let s ← expectLit (",\"scrapedAt\":\"".data) s
  let (scrapedAt, s) ← parseJsonString s
  let s ← expectLit ("\x7d\x7d".data) s
  if s.isEmpty then
    some { url := String.mk url, title := String.mk title,
           metadata := { depth := depth, wordCount := wordCount,
                         language := String.mk language,
                         scrapedAt := String.mk scrapedAt } }
  else none

/-! #### CSV emission -/

/-- `escapeCSV(value)`: the falsy check sends the empty string to `""`,
every other value is wrapped in quotes with inner quotes doubled. -/
def escapeCSV (value : String) : String :=
  if value.isEmpty then "\"\""
  else String.mk ('"' :: value.data.flatMap
    (fun c => if c = '"' then ['"', '"'] else [c]) ++ ['"'])

/-- The six-element field array built by the `csv` branch of `writeResult`
(`metadata` is a required field of `ScrapedContent`, so the defensive
`?.`/`||` fallbacks of the source reduce to the field values). -/
def csvFields (r : ScrapedContent) : List String :=
  [escapeCSV r.url, escapeCSV r.title, natToString r.metadata.depth,
   natToString r.metadata.wordCount, r.metadata.language, r.metadata.scrapedAt]

/-- The `row` emitted for a record in `csv` format. -/
def csvRow (r : ScrapedContent) : String :=
  String.intercalate "," (csvFields r)

/-! #### The pretty `JSON.stringify(result, null, 2)` used by the `json`
array branch -/

/-- `JSON.stringify(result, null, 2)` for the modelled projection. -/
def jsonStringifyPretty (r : ScrapedContent) : String :=
  String.mk
    (("\x7b\n  \"url\": ".data) ++ jsonQuote r.url ++
     (",\n  \"title\": ".data) ++ jsonQuote r.title ++
     (",\n  \"metadata\": \x7b\n    \"depth\": ".data) ++ (natToString r.metadata.depth).data ++
     (",\n    \"wordCount\": ".data) ++ (natToString r.metadata.wordCount).data ++
     (",\n    \"language\": ".data) ++ jsonQuote r.metadata.language ++
     (",\n    \"scrapedAt\": ".data) ++ jsonQuote r.metadata.scrapedAt ++
     ("\n  \x7d\n\x7d".data))

/-! #### The writer state machine -/

inductive Format
  | jsonl
  | json
  | csv
deriving Repr, DecidableEq

structure WriterConfig where
  jobId : String
  format : Format
  flushInterval : Nat
  maxBufferSize : Nat
deriving Repr, DecidableEq

structure WriterState where
  buffer : List ScrapedContent
  fileText : String
  resultCount : Nat
  isFirstWrite : Bool
deriving Repr, DecidableEq

structure Meta where
  jobId : String
  format : Format
  totalResults : Nat
deriving Repr, DecidableEq

/-- `initializeStream()`: truncates the file and writes the format header. -/
def initializeStream (cfg : WriterConfig) : WriterState :=
  { buffer := [], resultCount := 0, isFirstWrite := true,
    fileText :=
      match cfg.format with
      | .json => "[\n"
      | .csv => "url,title,depth,wordCount,language,scrapedAt\n"
      | .jsonl => "" }

/-- `writeResult(result)`: one record to the stream. -/
def writeResult (cfg : WriterConfig) (st : WriterState) (r : ScrapedContent) :
    WriterState :=
  match cfg.format with
  | .jsonl => { st with fileText := st.fileText ++ jsonStringify r ++ "\n" }
  | .json =>
    { st with
      fileText := st.fileText ++ (if st.isFirstWrite then "" else ",\n") ++
        jsonStringifyPretty r,
      isFirstWrite := false }
  | .csv => { st with fileText := st.fileText ++ csvRow r ++ "\n" }

/-- `flush()`. -/
def flush (cfg : WriterConfig) (st : WriterState) : WriterState :=
  if st.buffer.isEmpty then st
  else { st.buffer.foldl (writeResult cfg) st with buffer := [] }

/-- `write(result)`: buffer the record, flush on the auto/forced
thresholds. -/
def write (cfg : WriterConfig) (st : WriterState) (r : ScrapedContent) :
    WriterState :=
  let st := { st with buffer := st.buffer ++ [r],
                      resultCount := st.resultCount + 1 }
  if st.buffer.length ≥ cfg.flushInterval || st.buffer.length ≥ cfg.maxBufferSize
  then flush cfg st else st

/-- `close()`: final flush, format footer, metadata file. -/
def close (cfg : WriterConfig) (st : WriterState) : WriterState × Meta :=
  let st := flush cfg st
  let st :=
    match cfg.format with
    | .json => { st with fileText := st.fileText ++ "\n]" }
    | _ => st
  (st, { jobId := cfg.jobId, format := cfg.format, totalResults := st.resultCount })

/-! #### Reading the file back -/

/-- The lines of a character stream, with a final newline closing the last
line (so `wc -l` agrees with the list length on newline-terminated files). -/
def lineChunks : List Char → List (List Char)
  | [] => []
  | c :: cs =>
    if c = '\n' then [] :: lineChunks cs
    else
      match lineChunks cs with
      | [] => [[c]]
      | l :: ls => (c :: l) :: ls

/-- Decode a whole `jsonl` file. -/
def decodeFile (text : String) : Option (List ScrapedContent) :=
  (lineChunks text.data).mapM decodeRecord

/-- The text a `jsonl` run over the given records leaves in the output file
(specification-side rendering used by the round-trip theorem). -/
def jsonlRender : List ScrapedContent → String
  | [] => ""
  | r :: rs => jsonStringify r ++ "\n" ++ jsonlRender rs

end CrawlScrap.StreamingWriter

/-! ## Theorems -/

namespace CrawlScrap.UrlQueue

theorem mem_setAdd {l : List String} {x u : String} :
    u ∈ setAdd l x ↔ u ∈ l ∨ u = x := by
  unfold setAdd
  split
  next h =>
    have hx : x ∈ l := by simpa using h
    constructor
    · exact Or.inl
    · rintro (hu | rfl)
      · exact hu
      · exact hx
  next h => simp [List.mem_append]

theorem not_mem_setDelete_self (l : List String) (x : String) :
    x ∉ setDelete l x := by
  unfold setDelete
  simp

theorem mem_of_mem_setDelete {l : List String} {x u : String}
    (h : u ∈ setDelete l x) : u ∈ l ∧ u ≠ x := by
  unfold setDelete at h
  simpa using h

theorem find?_map_replace (q : List QueuedUrl) (e : QueuedUrl)
    (h : ∃ x ∈ q, x.url = e.url) :
    (q.map (fun x => if x.url == e.url then e else x)).find?
      (fun x => x.url == e.url) = some e := by
  induction q with
  | nil => simp at h
  | cons a q ih =>
    simp only [List.map_cons]
    by_cases ha : a.url = e.url
    · rw [if_pos (by simpa using ha)]
      exact List.find?_cons_of_pos _ (by simp)
    · rw [if_neg (by simpa using ha)]
      rw [List.find?_cons_of_neg _ (by simpa using ha)]
      apply ih
      obtain ⟨x, hx, hxe⟩ := h
      rcases List.mem_cons.mp hx with rfl | hx
      · exact absurd hxe ha
      · exact ⟨x, hx, hxe⟩

theorem find?_append_single (q : List QueuedUrl) (e : QueuedUrl)
    (h : q.find? (fun x => x.url == e.url) = none) :
    (q ++ [e]).find? (fun x => x.url == e.url) = some e := by
  induction q with
  | nil => simp
  | cons a q ih =>
    rw [List.find?_eq_none] at h
    have ha : ¬ ((fun x : QueuedUrl => x.url == e.url) a = true) :=
      h a (List.mem_cons_self a q)
    rw [List.cons_append, List.find?_cons_of_neg _ (by simpa using ha)]
    apply ih
    rw [List.find?_eq_none]
    exact fun x hx => h x (List.mem_cons_of_mem a hx)

theorem queueGet_queueSet_self (q : List QueuedUrl) (e : QueuedUrl) :
    queueGet (queueSet q e) e.url = some e := by
  rw [queueSet, queueGet]
  split
  next h =>
    apply find?_map_replace
    rw [queueHas, List.any_eq_true] at h
    obtain ⟨x, hx, hxe⟩ := h
    exact ⟨x, hx, by simpa using hxe⟩
  next h =>
    rw [queueHas] at h
    apply find?_append_single
    rw [List.find?_eq_none]
    intro x hx
    simp only [Bool.not_eq_true]
    by_contra hc
    rw [Bool.not_eq_false] at hc
    exact h (List.any_eq_true.mpr ⟨x, hx, hc⟩)

/-- C10: `UrlQueue.fail(url, retry = true)` removes the URL from in-progress
and re-enqueues it with depth `0`, parent `null` and priority `100`,
regardless of the attributes of the originally enqueued task. -/
theorem fail_retry_resets_attributes (getDomain : String → String) (now : Int)
    (s : QState) (url : String) :
    url ∉ (fail getDomain now s url true).inProgress ∧
    queueGet (fail getDomain now s url true).queue url =
      some { url := url, depth := 0, parentUrl := none,
             domain := getDomain url, priority := 100, addedAt := now } ∧
    (fail getDomain now s url true).stats.failed = s.stats.failed + 1 := by
  refine ⟨?_, ?_, rfl⟩
  · exact not_mem_setDelete_self _ _
  · exact queueGet_queueSet_self _ _

/-- C1 counterexample: from the empty queue, `add "u"` followed by
`complete "u"` (an operation sequence the claim quantifies over) leaves
`"u"` in the queued set and in the processed set at once, so the three
sets are not pairwise disjoint after every operation sequence. -/
theorem add_then_complete_breaks_disjointness :
    let s1 := (add (fun _ => "d") defaultConfig 0 initial "u" 0 none 0).2
    let s2 := complete s1 "u"
    "u" ∈ urls s2 ∧ "u" ∈ s2.processed := by
  decide

theorem queueHas_iff {q : List QueuedUrl} {url : String} :
    queueHas q url = true ↔ url ∈ q.map (fun e => e.url) := by
  rw [queueHas, List.any_eq_true]
  constructor
  · rintro ⟨e, he, hurl⟩
    exact List.mem_map.mpr ⟨e, he, by simpa using hurl⟩
  · intro h
    obtain ⟨e, he, hurl⟩ := List.mem_map.mp h
    exact ⟨e, he, by simpa using hurl⟩

theorem add_inv (gd : String → String) (cfg : UrlQueueConfig) (now : Int)
    (s : QState) (url : String) (depth : Nat) (pu : Option String)
    (pr : Int) (h : Inv s) : Inv (add gd cfg now s url depth pu pr).2 := by
  obtain ⟨hnd, hq, hip⟩ := h
  simp only [add]
  split
  next => exact ⟨hnd, hq, hip⟩
  next hdup =>
    split
    next => exact ⟨hnd, hq, hip⟩
    next =>
      simp only [Bool.or_eq_true, not_or] at hdup
      obtain ⟨⟨hproc, hhas⟩, hinprog⟩ := hdup
      have hproc2 : url ∉ s.processed := fun hc => hproc (by simpa using hc)
      have hinprog2 : url ∉ s.inProgress := fun hc => hinprog (by simpa using hc)
      have hurl_notin : url ∉ urls s := fun hc => hhas (queueHas_iff.mpr hc)
      have hqs : ∀ e : QueuedUrl, e.url = url → queueSet s.queue e = s.queue ++ [e] := by
        intro e he
        rw [queueSet, if_neg]
        rw [he]
        exact fun hc => hhas hc
      refine ⟨?_, ?_, hip⟩
      · show ((queueSet s.queue _).map (fun e => e.url)).Nodup
        rw [hqs _ rfl]
        simp only [List.map_append, List.map_cons, List.map_nil]
        refine List.Nodup.append hnd (by simp) ?_
        intro a ha hb
        simp only [List.mem_singleton] at hb
        subst hb
        exact hurl_notin ha
      · intro u hu
        have hu2 : u ∈ urls s ∨ u = url := by
          have : u ∈ (queueSet s.queue _).map (fun e => e.url) := hu
          rw [hqs _ rfl] at this
          simpa [urls, List.mem_append] using this
        rcases hu2 with hu2 | rfl
        · exact hq u hu2
        · exact ⟨hinprog2, hproc2⟩

theorem mem_map_queueDelete {q : List QueuedUrl} {u v : String}
    (hu : u ∈ q.map (fun e => e.url)) (huv : u ≠ v) :
    u ∈ (queueDelete q v).map (fun e => e.url) := by
  obtain ⟨e, he, rfl⟩ := List.mem_map.mp hu
  refine List.mem_map.mpr ⟨e, ?_, rfl⟩
  rw [queueDelete, List.mem_filter]
  exact ⟨he, by simpa using huv⟩

theorem map_queueDelete_subset {q : List QueuedUrl} {u v : String}
    (hu : u ∈ (queueDelete q v).map (fun e => e.url)) :
    u ∈ q.map (fun e => e.url) ∧ u ≠ v := by
  obtain ⟨e, he, rfl⟩ := List.mem_map.mp hu
  rw [queueDelete, List.mem_filter] at he
  exact ⟨List.mem_map.mpr ⟨e, he.1, rfl⟩, by simpa using he.2⟩

theorem getBatchGo_inv (cfg : UrlQueueConfig) (processed : List String) :
    ∀ (items : List QueuedUrl) (acc : BatchAcc),
    (items.map (fun e => e.url)).Nodup →
    (∀ x ∈ items, x.url ∈ acc.queue.map (fun e => e.url)) →
    AccInv processed acc → AccInv processed (getBatchGo cfg items acc) := by
  intro items
  induction items with
  | nil => intro acc _ _ hinv; exact hinv
  | cons q rest ih =>
    intro acc hnd hmem hinv
    simp only [List.map_cons, List.nodup_cons] at hnd
    obtain ⟨hqrest, hndrest⟩ := hnd
    obtain ⟨hand, hadis, haip⟩ := hinv
    simp only [getBatchGo]
    split
    next => exact ⟨hand, hadis, haip⟩
    next =>
      split
      next =>
        exact ih acc hndrest (fun x hx => hmem x (List.mem_cons_of_mem q hx))
          ⟨hand, hadis, haip⟩
      next =>
        apply ih
        · exact hndrest
        · intro x hx
          refine mem_map_queueDelete (hmem x (List.mem_cons_of_mem q hx)) ?_
          intro hc
          exact hqrest (hc ▸ List.mem_map.mpr
            (by obtain ⟨y, hy, hye⟩ := List.mem_map.mp
                  (show x.url ∈ (rest.map (fun e => e.url)) from
                    List.mem_map.mpr ⟨x, hx, rfl⟩)
                exact ⟨y, hy, hye⟩))
        · have hquq : q.url ∈ acc.queue.map (fun e => e.url) :=
            hmem q (List.mem_cons_self q rest)
          refine ⟨?_, ?_, ?_⟩
          · show ((queueDelete acc.queue q.url).map (fun e => e.url)).Nodup
            refine List.Nodup.sublist ?_ hand
            exact List.Sublist.map _ (List.filter_sublist _)
          · intro u hu
            obtain ⟨hu1, hu2⟩ := map_queueDelete_subset hu
            obtain ⟨huip, hupr⟩ := hadis u hu1
            constructor
            · intro hc
              rcases mem_setAdd.mp hc with hc | rfl
              · exact huip hc
              · exact hu2 rfl
            · exact hupr
          · intro u hu
            rcases mem_setAdd.mp hu with hu | rfl
            · exact haip u hu
            · exact (hadis _ hquq).2

theorem getBatch_inv (cfg : UrlQueueConfig) (s : QState) (h : Inv s) :
    Inv (getBatch cfg s).2 := by
  obtain ⟨hnd, hq, hip⟩ := h
  simp only [getBatch]
  split
  next => exact ⟨hnd, hq, hip⟩
  next =>
    have hperm : (s.queue.mergeSort (fun a b => a.priority ≤ b.priority)).Perm s.queue :=
      List.mergeSort_perm _ _
    have hmapperm := hperm.map (fun e => e.url)
    have hsortnd : ((s.queue.mergeSort (fun a b => a.priority ≤ b.priority)).map
        (fun e => e.url)).Nodup := hnd.perm hmapperm.symm
    have hres := getBatchGo_inv cfg s.processed
      (s.queue.mergeSort (fun a b => a.priority ≤ b.priority))
      { batch := [], domainsInBatch := [], queue := s.queue,
        inProgress := s.inProgress }
      hsortnd
      (fun x hx => List.mem_map.mpr ⟨x, hperm.mem_iff.mp hx, rfl⟩)
      ⟨hnd, hq, hip⟩
    obtain ⟨h1, h2, h3⟩ := hres
    exact ⟨h1, h2, h3⟩

theorem complete_inv (s : QState) (url : String) (h : Inv s)
    (hmem : url ∈ s.inProgress) : Inv (complete s url) := by
  obtain ⟨hnd, hq, hip⟩ := h
  refine ⟨hnd, ?_, ?_⟩
  · intro u hu
    obtain ⟨huip, hupr⟩ := hq u hu
    constructor
    · intro hc
      exact huip (mem_of_mem_setDelete hc).1
    · intro hc
      rcases mem_setAdd.mp hc with hc | rfl
      · exact hupr hc
      · exact huip hmem
  · intro u hu
    obtain ⟨hu1, hu2⟩ := mem_of_mem_setDelete hu
    intro hc
    rcases mem_setAdd.mp hc with hc | rfl
    · exact hip u hu1 hc
    · exact hu2 rfl

theorem fail_inv (gd : String → String) (now : Int) (s : QState) (url : String)
    (retry : Bool) (h : Inv s) (hmem : url ∈ s.inProgress) :
    Inv (fail gd now s url retry) := by
  obtain ⟨hnd, hq, hip⟩ := h
  have hurl_notin : url ∉ urls s := fun hc => (hq url hc).1 hmem
  have hurl_npr : url ∉ s.processed := hip url hmem
  simp only [fail]
  split
  next =>
    have hqs : ∀ e : QueuedUrl, e.url = url → queueSet s.queue e = s.queue ++ [e] := by
      intro e he
      rw [queueSet, if_neg]
      rw [he]
      intro hc
      exact hurl_notin (queueHas_iff.mp hc)
    refine ⟨?_, ?_, ?_⟩
    · show ((queueSet s.queue _).map (fun e => e.url)).Nodup
      rw [hqs _ rfl]
      simp only [List.map_append, List.map_cons, List.map_nil]
      refine List.Nodup.append hnd (by simp) ?_
      intro a ha hb
      simp only [List.mem_singleton] at hb
      subst hb
      exact hurl_notin ha
    · intro u hu
      have hu2 : u ∈ urls s ∨ u = url := by
        have : u ∈ (queueSet s.queue _).map (fun e => e.url) := hu
        rw [hqs _ rfl] at this
        simpa [urls, List.mem_append] using this
      rcases hu2 with hu2 | rfl
      · obtain ⟨huip, hupr⟩ := hq u hu2
        exact ⟨fun hc => huip (mem_of_mem_setDelete hc).1, hupr⟩
      · exact ⟨not_mem_setDelete_self _ _, hurl_npr⟩
    · intro u hu
      exact hip u (mem_of_mem_setDelete hu).1
  next =>
    refine ⟨hnd, ?_, ?_⟩
    · intro u hu
      obtain ⟨huip, hupr⟩ := hq u hu
      exact ⟨fun hc => huip (mem_of_mem_setDelete hc).1, hupr⟩
    · intro u hu
      exact hip u (mem_of_mem_setDelete hu).1

theorem initial_inv : Inv initial := by
  refine ⟨?_, ?_, ?_⟩ <;> simp [initial, urls]

theorem reach_inv (gd : String → String) (cfg : UrlQueueConfig) (s : QState)
    (h : Reach gd cfg s) : Inv s := by
  induction h with
  | init => exact initial_inv
  | add s url depth pu pr now _ ih => exact add_inv gd cfg now s url depth pu pr ih
  | getBatch s _ ih => exact getBatch_inv cfg s ih
  | complete s url _ hmem ih => exact complete_inv s url ih hmem
  | fail s url retry now _ hmem ih => exact fail_inv gd now s url retry ih hmem
  | markDiscoveryComplete s _ ih => exact ih

/-- C1 (amended): `add` on a URL already queued, in progress or processed
returns `false`, increments the duplicates counter and leaves the three sets
unchanged; and every operation sequence in which `complete` and `fail` are
invoked only on URLs currently in progress (the crawl-engine protocol,
captured by `Reach`) keeps the queued, in-progress and processed sets
pairwise disjoint.  For unrestricted sequences the disjointness part of the
claim fails: see the counterexample. -/
theorem add_rejects_duplicates_and_protocol_disjointness :
    (∀ (gd : String → String) (cfg : UrlQueueConfig) (now : Int) (s : QState)
      (url : String) (depth : Nat) (pu : Option String) (pr : Int),
      (url ∈ urls s ∨ url ∈ s.inProgress ∨ url ∈ s.processed) →
      (add gd cfg now s url depth pu pr).1 = false ∧
      (add gd cfg now s url depth pu pr).2.queue = s.queue ∧
      (add gd cfg now s url depth pu pr).2.inProgress = s.inProgress ∧
      (add gd cfg now s url depth pu pr).2.processed = s.processed ∧
      (add gd cfg now s url depth pu pr).2.stats.duplicates =
        s.stats.duplicates + 1) ∧
    (∀ (gd : String → String) (cfg : UrlQueueConfig) (s : QState),
      Reach gd cfg s →
      (urls s).Nodup ∧
      (∀ u ∈ urls s, u ∉ s.inProgress ∧ u ∉ s.processed) ∧
      (∀ u ∈ s.inProgress, u ∉ s.processed)) := by
  constructor
  · intro gd cfg now s url depth pu pr hmem
    rcases hmem with h | h | h
    · simp [add, queueHas_iff.mpr h]
    · simp [add, h]
    · simp [add, h]
  · intro gd cfg s h
    exact reach_inv gd cfg s h

/-- Witness for the C1 theorem at a concrete queue state: one URL added from
the empty queue, then added again. -/
theorem add_rejects_duplicates_witness :
    ((add (fun _ => "d") defaultConfig 0
        ((add (fun _ => "d") defaultConfig 0 initial "u" 0 none 0).2)
        "u" 1 none 5).1 = false ∧
      (add (fun _ => "d") defaultConfig 0
        ((add (fun _ => "d") defaultConfig 0 initial "u" 0 none 0).2)
        "u" 1 none 5).2.stats.duplicates =
        ((add (fun _ => "d") defaultConfig 0 initial "u" 0 none 0).2).stats.duplicates + 1) ∧
    (∀ u ∈ urls ((add (fun _ => "d") defaultConfig 0 initial "u" 0 none 0).2),
      u ∉ ((add (fun _ => "d") defaultConfig 0 initial "u" 0 none 0).2).inProgress ∧
      u ∉ ((add (fun _ => "d") defaultConfig 0 initial "u" 0 none 0).2).processed) := by
  have h1 := add_rejects_duplicates_and_protocol_disjointness.1
    (fun _ => "d") defaultConfig 0
    ((add (fun _ => "d") defaultConfig 0 initial "u" 0 none 0).2)
    "u" 1 none 5 (Or.inl (by decide))
  have h2 := add_rejects_duplicates_and_protocol_disjointness.2
    (fun _ => "d") defaultConfig
    ((add (fun _ => "d") defaultConfig 0 initial "u" 0 none 0).2)
    (Reach.add initial "u" 0 none 0 0 Reach.init)
  exact ⟨⟨h1.1, h1.2.2.2.2⟩, h2.2.1⟩

end CrawlScrap.UrlQueue

namespace CrawlScrap.RateLimiter

/-- C2 counterexample: with a per-domain cap of 2, three consecutive
`acquireSlot` calls on a fresh host state all succeed and leave 3 requests
in flight, exceeding the cap. -/
theorem acquireSlot_cap_counterexample :
    let cfg : RateLimitConfig := { maxConcurrentPerDomain := 2 }
    let st0 := initState "h" 0
    let st1 := (acquireSlot cfg true 0 0 st0).2
    let st2 := (acquireSlot cfg true 0 0 st1).2
    let st3 := (acquireSlot cfg true 0 0 st2).2
    st2.concurrentRequests = cfg.maxConcurrentPerDomain ∧
    (acquireSlot cfg true 0 0 st2).1 = true ∧
    st3.concurrentRequests = 3 ∧
    st3.concurrentRequests > cfg.maxConcurrentPerDomain := by
  decide

/-- C2 (amended): when a host is at (or beyond) `maxConcurrentPerDomain`,
`checkRateLimit` does not block: it returns `allowed = true` with
`waitMs = delayMs` and the concurrent-limit reason, and `acquireSlot`
(after sleeping that delay) unconditionally increments the in-flight count,
raising it above the cap; the count is therefore not bounded by
`maxConcurrentPerDomain`. -/
theorem acquireSlot_at_cap_increments_past_cap (cfg : RateLimitConfig)
    (st : DomainState) (now nowStart : Int)
    (h : st.concurrentRequests ≥ cfg.maxConcurrentPerDomain) :
    (checkRateLimit cfg true now st).1.allowed = true ∧
    (checkRateLimit cfg true now st).1.waitMs = st.delayMs ∧
    (checkRateLimit cfg true now st).1.reason =
      some "Concurrent request limit reached" ∧
    (checkRateLimit cfg true now st).2 = st ∧
    (acquireSlot cfg true now nowStart st).1 = true ∧
    (acquireSlot cfg true now nowStart st).2.concurrentRequests =
      st.concurrentRequests + 1 := by
  simp [checkRateLimit, acquireSlot, recordRequestStart, h]

/-- Witness for the C2 theorem: cap 2, a state with 2 requests in flight. -/
theorem acquireSlot_at_cap_witness :
    (checkRateLimit { maxConcurrentPerDomain := 2 } true 0
      { domain := "h", lastRequestTime := 0, delayMs := 500,
        concurrentRequests := 2, totalRequests := 2,
        blockedRequests := 0 }).1.allowed = true ∧
    (acquireSlot { maxConcurrentPerDomain := 2 } true 0 500
      { domain := "h", lastRequestTime := 0, delayMs := 500,
        concurrentRequests := 2, totalRequests := 2,
        blockedRequests := 0 }).2.concurrentRequests = 2 + 1 := by
  have h := acquireSlot_at_cap_increments_past_cap
    { maxConcurrentPerDomain := 2 }
    { domain := "h", lastRequestTime := 0, delayMs := 500,
      concurrentRequests := 2, totalRequests := 2, blockedRequests := 0 }
    0 500 (by decide)
  exact ⟨h.1, h.2.2.2.2.2⟩

end CrawlScrap.RateLimiter

namespace CrawlScrap.CircuitBreaker

theorem recordSuccessN_halfOpen (cfg : CircuitBreakerConfig)
    (times : Nat → Int) (c : DomainCircuit) (henabled : cfg.enabled = true)
    (hst : c.state = .HALF_OPEN) (hsucc : c.successes = 0) :
    ∀ k, k < cfg.successThreshold →
      (recordSuccessN cfg times k c).state = .HALF_OPEN ∧
      (recordSuccessN cfg times k c).successes = k := by
  intro k
  induction k with
  | zero => intro _; exact ⟨hst, hsucc⟩
  | succ k ih =>
    intro hk
    have hk2 : k < cfg.successThreshold := Nat.lt_of_succ_lt hk
    obtain ⟨ihs, ihc⟩ := ih hk2
    simp only [recordSuccessN, recordSuccess, henabled, Bool.not_true,
      Bool.false_eq_true, if_false]
    rw [if_pos (show ({ recordSuccessN cfg times k c with
        totalSuccesses := (recordSuccessN cfg times k c).totalSuccesses + 1 } :
          DomainCircuit).state = .HALF_OPEN from ihs)]
    rw [if_neg (show ¬ cfg.successThreshold ≤
        ({ recordSuccessN cfg times k c with
           totalSuccesses := (recordSuccessN cfg times k c).totalSuccesses + 1 } :
             DomainCircuit).successes + 1 by
      show ¬ cfg.successThreshold ≤ (recordSuccessN cfg times k c).successes + 1
      rw [ihc]; omega)]
    exact ⟨ihs, by rw [show ({ recordSuccessN cfg times k c with
      totalSuccesses := (recordSuccessN cfg times k c).totalSuccesses + 1 } :
        DomainCircuit).successes = (recordSuccessN cfg times k c).successes
      from rfl, ihc]⟩

/-- C3: circuit-breaker temporal behaviour (enabled configuration).  In OPEN,
a check strictly before `resetTimeoutMs` has elapsed is blocked with state
OPEN and bumps `totalBlocked`; the first check at or after `resetTimeoutMs`
flips the circuit to HALF_OPEN and is allowed; a failure recorded in
HALF_OPEN reopens the circuit; `successThreshold` successes recorded in
HALF_OPEN close it; and a failure recorded in CLOSED opens the circuit
exactly when the failure timestamps within `failureWindowMs` (including the
new one) reach `failureThreshold`. -/
theorem circuit_breaker_transitions (cfg : CircuitBreakerConfig)
    (c : DomainCircuit) (now : Int) (times : Nat → Int)
    (henabled : cfg.enabled = true) :
    (c.state = .OPEN → now - c.lastStateChange < cfg.resetTimeoutMs →
      (checkCircuit cfg now c).1.allowed = false ∧
      (checkCircuit cfg now c).1.state = .OPEN ∧
      (checkCircuit cfg now c).2.state = .OPEN ∧
      (checkCircuit cfg now c).2.totalBlocked = c.totalBlocked + 1) ∧
    (c.state = .OPEN → cfg.resetTimeoutMs ≤ now - c.lastStateChange →
      (checkCircuit cfg now c).1.allowed = true ∧
      (checkCircuit cfg now c).1.state = .HALF_OPEN ∧
      (checkCircuit cfg now c).2.state = .HALF_OPEN ∧
      (checkCircuit cfg now c).2.successes = 0 ∧
      (checkCircuit cfg now c).2.lastStateChange = now) ∧
    (c.state = .HALF_OPEN → (recordFailure cfg now c).state = .OPEN) ∧
    (c.state = .HALF_OPEN → c.successes = 0 → 1 ≤ cfg.successThreshold →
      (recordSuccessN cfg times cfg.successThreshold c).state = .CLOSED) ∧
    (c.state = .CLOSED →
      ((recordFailure cfg now c).state = .OPEN ↔
        cfg.failureThreshold ≤
          ((c.failures ++ [now]).filter
            (fun ts => ts > now - cfg.failureWindowMs)).length)) := by
  refine ⟨?_, ?_, ?_, ?_, ?_⟩
  · intro hst hlt
    simp only [checkCircuit, henabled, Bool.not_true, Bool.false_eq_true,
      if_false, cleanupFailures]
    rw [if_neg (by simp [hst])]
    rw [if_pos (by simp [hst])]
    rw [if_neg (show ¬ cfg.resetTimeoutMs ≤ now - c.lastStateChange by omega)]
    exact ⟨rfl, rfl, hst, rfl⟩
  · intro hst hge
    simp only [checkCircuit, henabled, Bool.not_true, Bool.false_eq_true,
      if_false, cleanupFailures]
    rw [if_neg (by simp [hst])]
    rw [if_pos (by simp [hst])]
    rw [if_pos (show cfg.resetTimeoutMs ≤ now - c.lastStateChange from hge)]
    exact ⟨rfl, rfl, rfl, rfl, rfl⟩
  · intro hst
    simp only [recordFailure, henabled, Bool.not_true, Bool.false_eq_true,
      if_false, cleanupFailures]
    rw [if_neg (by simp [hst])]
    rw [if_pos (by simp [hst])]
  · intro hst hsucc hthr
    obtain ⟨m, hm⟩ : ∃ m, cfg.successThreshold = m + 1 :=
      ⟨cfg.successThreshold - 1, by omega⟩
    have hrec := recordSuccessN_halfOpen cfg times c henabled hst hsucc m (by omega)
    rw [hm]
    simp only [recordSuccessN, recordSuccess, henabled, Bool.not_true,
      Bool.false_eq_true, if_false]
    rw [if_pos (show ({ recordSuccessN cfg times m c with
        totalSuccesses := (recordSuccessN cfg times m c).totalSuccesses + 1 } :
          DomainCircuit).state = .HALF_OPEN from hrec.1)]
    rw [if_pos (show cfg.successThreshold ≤
        ({ recordSuccessN cfg times m c with
           totalSuccesses := (recordSuccessN cfg times m c).totalSuccesses + 1 } :
             DomainCircuit).successes + 1 by
      show cfg.successThreshold ≤ (recordSuccessN cfg times m c).successes + 1
      rw [hrec.2]; omega)]
  · intro hst
    simp only [recordFailure, henabled, Bool.not_true, Bool.false_eq_true,
      if_false, cleanupFailures]
    rw [if_pos (by simp [hst])]
    split
    next hcond => exact ⟨fun _ => hcond, fun _ => rfl⟩
    next hcond =>
      constructor
      · intro h
        simp [hst] at h
      · intro h
        exact absurd h hcond

end CrawlScrap.CircuitBreaker

namespace CrawlScrap.CircuitBreaker

/-- Witness for the C3 theorem on a concrete enabled configuration, an OPEN
circuit probed before and at the reset timeout, a HALF_OPEN circuit and a
CLOSED circuit. -/
theorem circuit_breaker_transitions_witness :
    (checkCircuit
      { enabled := true, failureThreshold := 1, failureWindowMs := 1000,
        resetTimeoutMs := 100, successThreshold := 1 } 50
      { domain := "h", state := .OPEN, failures := [], successes := 0,
        lastFailure := none, lastStateChange := 0, totalFailures := 0,
        totalSuccesses := 0, totalBlocked := 0 }).1.allowed = false ∧
    (checkCircuit
      { enabled := true, failureThreshold := 1, failureWindowMs := 1000,
        resetTimeoutMs := 100, successThreshold := 1 } 100
      { domain := "h", state := .OPEN, failures := [], successes := 0,
        lastFailure := none, lastStateChange := 0, totalFailures := 0,
        totalSuccesses := 0, totalBlocked := 0 }).2.state = .HALF_OPEN ∧
    (recordFailure
      { enabled := true, failureThreshold := 1, failureWindowMs := 1000,
        resetTimeoutMs := 100, successThreshold := 1 } 0
      { domain := "h", state := .HALF_OPEN, failures := [], successes := 0,
        lastFailure := none, lastStateChange := 0, totalFailures := 0,
        totalSuccesses := 0, totalBlocked := 0 }).state = .OPEN ∧
    (recordSuccessN
      { enabled := true, failureThreshold := 1, failureWindowMs := 1000,
        resetTimeoutMs := 100, successThreshold := 1 } (fun _ => 0) 1
      { domain := "h", state := .HALF_OPEN, failures := [], successes := 0,
        lastFailure := none, lastStateChange := 0, totalFailures := 0,
        totalSuccesses := 0, totalBlocked := 0 }).state = .CLOSED ∧
    ((recordFailure
      { enabled := true, failureThreshold := 1, failureWindowMs := 1000,
        resetTimeoutMs := 100, successThreshold := 1 } 0
      { domain := "h", state := .CLOSED, failures := [], successes := 0,
        lastFailure := none, lastStateChange := 0, totalFailures := 0,
        totalSuccesses := 0, totalBlocked := 0 }).state = .OPEN ↔
      1 ≤ ((([] : List Int) ++ [0]).filter
        (fun ts => ts > (0 : Int) - 1000)).length) := by
  refine ⟨?_, ?_, ?_, ?_, ?_⟩
  · exact ((circuit_breaker_transitions _ _ 50 (fun _ => 0) rfl).1 rfl
      (by decide)).1
  · exact ((circuit_breaker_transitions _ _ 100 (fun _ => 0) rfl).2.1 rfl
      (by decide)).2.2.1
  · exact (circuit_breaker_transitions _ _ 0 (fun _ => 0) rfl).2.2.1 rfl
  · exact (circuit_breaker_transitions _ _ 0 (fun _ => 0) rfl).2.2.2.1 rfl rfl
      (by decide)
  · exact (circuit_breaker_transitions _ _ 0 (fun _ => 0) rfl).2.2.2.2 rfl

end CrawlScrap.CircuitBreaker

namespace CrawlScrap

theorem find?_alSet_replace {α : Type} (l : List (String × α)) (k : String) (v : α)
    (h : ∃ p ∈ l, p.1 = k) :
    (l.map (fun p => if p.1 == k then (k, v) else p)).find?
      (fun p => p.1 == k) = some (k, v) := by
  induction l with
  | nil => simp at h
  | cons a l ih =>
    simp only [List.map_cons]
    by_cases ha : a.1 = k
    · rw [if_pos (by simpa using ha)]
      exact List.find?_cons_of_pos _ (by simp)
    · rw [if_neg (by simpa using ha)]
      rw [List.find?_cons_of_neg _ (by simpa using ha)]
      apply ih
      obtain ⟨p, hp, hpk⟩ := h
      rcases List.mem_cons.mp hp with rfl | hp
      · exact absurd hpk ha
      · exact ⟨p, hp, hpk⟩

theorem alGet_alSet_self {α : Type} (l : List (String × α)) (k : String) (v : α) :
    alGet (alSet l k v) k = some v := by
  rw [alSet, alGet]
  split
  next h =>
    rw [Option.isSome_iff_exists] at h
    obtain ⟨p, hp⟩ := h
    have hmem := List.mem_of_find?_eq_some hp
    have hpk : p.1 = k := by
      have := List.find?_some hp
      simpa using this
    rw [find?_alSet_replace l k v ⟨p, hmem, hpk⟩]
    rfl
  next h =>
    have hnone : l.find? (fun p => p.1 == k) = none := by
      cases hf : l.find? (fun p => p.1 == k) with
      | none => rfl
      | some p => rw [hf] at h; simp at h
    rw [List.find?_append, hnone]
    simp

end CrawlScrap

namespace CrawlScrap.ChangeDetection

/-- C5: after `updateFingerprint`, the stored fingerprint satisfies
`changeCount ≤ crawlCount` whenever the prior record did (and on a first
crawl the stored record is `changeCount = 0`, `crawlCount = 1`); each call
increments `crawlCount` by exactly one and `changeCount` by at most one. -/
theorem updateFingerprint_change_le_crawl (md5 : String → String)
    (md5S : StructureSummary → String) (now : Int)
    (fps : List (String × PageFingerprint)) (url content : String)
    (links headings : List String) (etag lastModified : Option String) :
    (alGet fps url = none →
      ∃ fp, alGet (updateFingerprint md5 md5S now fps url content links
          headings etag lastModified).2 url = some fp ∧
        fp.changeCount = 0 ∧ fp.crawlCount = 1) ∧
    (∀ e, alGet fps url = some e →
      ∃ fp, alGet (updateFingerprint md5 md5S now fps url content links
          headings etag lastModified).2 url = some fp ∧
        fp.crawlCount = e.crawlCount + 1 ∧
        e.changeCount ≤ fp.changeCount ∧
        fp.changeCount ≤ e.changeCount + 1 ∧
        (e.changeCount ≤ e.crawlCount → fp.changeCount ≤ fp.crawlCount)) := by
  constructor
  · intro hnone
    simp only [updateFingerprint, hnone]
    exact ⟨_, alGet_alSet_self _ _ _, rfl, rfl⟩
  · intro e he
    simp only [updateFingerprint, he]
    refine ⟨_, alGet_alSet_self _ _ _, by simp, ?_, ?_, ?_⟩
    · show e.changeCount ≤ e.changeCount + _
      split <;> omega
    · show e.changeCount + _ ≤ e.changeCount + 1
      split <;> omega
    · intro hle
      show e.changeCount + _ ≤ _
      split
      · show e.changeCount + 1 ≤ e.crawlCount + 1
        omega
      · show e.changeCount + 0 ≤ e.crawlCount + 1
        omega

/-- Witness for the C5 theorem: a first crawl on an empty fingerprint map and
an update over a stored fingerprint with `changeCount = 1 ≤ crawlCount = 3`. -/
theorem updateFingerprint_change_le_crawl_witness :
    (∃ fp, alGet (updateFingerprint (fun s => s) (fun _ => "sh") 0 []
        "u" "body" [] [] none none).2 "u" = some fp ∧
      fp.changeCount = 0 ∧ fp.crawlCount = 1) ∧
    (∃ fp, alGet (updateFingerprint (fun s => s) (fun _ => "sh") 7
        [("u", { url := "u", contentHash := "old", structureHash := "sh",
                 etag := none, lastModified := none, lastCrawled := 0,
                 changeCount := 1, crawlCount := 3,
                 avgTimeBetweenChanges := 0 })]
        "u" "body" [] [] none none).2 "u" = some fp ∧
      fp.crawlCount = 3 + 1 ∧ fp.changeCount ≤ 1 + 1) := by
  constructor
  · exact (updateFingerprint_change_le_crawl (fun s => s) (fun _ => "sh") 0 []
      "u" "body" [] [] none none).1 rfl
  · obtain ⟨fp, h1, h2, _, h4, _⟩ :=
      (updateFingerprint_change_le_crawl (fun s => s) (fun _ => "sh") 7
        [("u", { url := "u", contentHash := "old", structureHash := "sh",
                 etag := none, lastModified := none, lastCrawled := 0,
                 changeCount := 1, crawlCount := 3,
                 avgTimeBetweenChanges := 0 })]
        "u" "body" [] [] none none).2
      { url := "u", contentHash := "old", structureHash := "sh",
        etag := none, lastModified := none, lastCrawled := 0,
        changeCount := 1, crawlCount := 3, avgTimeBetweenChanges := 0 }
      (by decide)
    exact ⟨fp, h1, h2, h4⟩

end CrawlScrap.ChangeDetection

namespace CrawlScrap

theorem startsWithList_self : ∀ l : List Char, startsWithList l l = true := by
  intro l
  induction l with
  | nil => rfl
  | cons c l ih => simp [startsWithList, ih]

end CrawlScrap

namespace CrawlScrap.RobotsTxt

/-- C6 counterexample: with `Allow: /a` and `Disallow: /a/b`, the path
`/a/b` matches the disallow pattern and also the strictly less specific
allow pattern, yet `isUrlAllowed` returns `true` (the claim requires
`false`). -/
theorem disallow_overridden_by_shorter_allow :
    pathMatches "/a/b" "/a/b" = true ∧
    pathMatches "/a/b" "/a" = true ∧
    "/a".length < "/a/b".length ∧
    isUrlAllowed true
      { domain := "ex.com", crawlDelay := none, disallowedPaths := ["/a/b"],
        allowedPaths := ["/a"], sitemaps := [] } "/a/b" = true := by
  decide

/-- C6 (amended): `isUrlAllowed` gives Allow absolute precedence: any
matching Allow pattern (of any specificity, in particular an exact match)
yields `true` even when a Disallow pattern also matches; a Disallow match
yields `false` only when no Allow pattern matches the path. -/
theorem isUrlAllowed_allow_first (rules : RobotsTxtRules) (path : String) :
    (rules.allowedPaths.any (fun p => pathMatches path p) = true →
      isUrlAllowed true rules path = true) ∧
    (rules.allowedPaths.any (fun p => pathMatches path p) = false →
      rules.disallowedPaths.any (fun p => pathMatches path p) = true →
      isUrlAllowed true rules path = false) ∧
    (∀ p ∈ rules.allowedPaths, p = path → p ≠ "" →
      p.data.contains '*' = false → isUrlAllowed true rules path = true) := by
  refine ⟨?_, ?_, ?_⟩
  · intro h
    simp [isUrlAllowed, h]
  · intro h1 h2
    simp [isUrlAllowed, h1, h2]
  · intro p hp hpe hne hstar
    have hm : pathMatches path p = true := by
      rw [pathMatches, if_neg (by simpa [String.isEmpty_iff] using hne),
        if_neg (by rw [hstar]; simp)]
      subst hpe
      exact startsWithList_self _
    have hany : rules.allowedPaths.any (fun q => pathMatches path q) = true :=
      List.any_eq_true.mpr ⟨p, hp, hm⟩
    simp [isUrlAllowed, hany]

/-- Witness for the C6 theorem on concrete rule sets: an allow match wins,
a disallow match with no allow match blocks, and an exact allow match is
allowed. -/
theorem isUrlAllowed_allow_first_witness :
    isUrlAllowed true
      { domain := "ex.com", crawlDelay := none, disallowedPaths := ["/a/b"],
        allowedPaths := ["/a"], sitemaps := [] } "/a/b" = true ∧
    isUrlAllowed true
      { domain := "ex.com", crawlDelay := none, disallowedPaths := ["/priv"],
        allowedPaths := [], sitemaps := [] } "/priv/x" = false ∧
    isUrlAllowed true
      { domain := "ex.com", crawlDelay := none, disallowedPaths := ["/a"],
        allowedPaths := ["/a/b"], sitemaps := [] } "/a/b" = true := by
  refine ⟨?_, ?_, ?_⟩
  · exact (isUrlAllowed_allow_first
      { domain := "ex.com", crawlDelay := none, disallowedPaths := ["/a/b"],
        allowedPaths := ["/a"], sitemaps := [] } "/a/b").1 (by decide)
  · exact (isUrlAllowed_allow_first
      { domain := "ex.com", crawlDelay := none, disallowedPaths := ["/priv"],
        allowedPaths := [], sitemaps := [] } "/priv/x").2.1 (by decide)
      (by decide)
  · exact (isUrlAllowed_allow_first
      { domain := "ex.com", crawlDelay := none, disallowedPaths := ["/a"],
        allowedPaths := ["/a/b"], sitemaps := [] } "/a/b").2.2 "/a/b"
      (by decide) rfl (by decide) (by decide)

end CrawlScrap.RobotsTxt

namespace CrawlScrap.StreamingWriter

/-- C8 counterexample: for a record with language `"en"`, not every emitted
CSV field is wrapped in double quotes — the depth, wordCount, language and
scrapedAt fields are written raw. -/
theorem csv_fields_not_all_quoted :
    ¬ (∀ f ∈ csvFields
        { url := "https://e.x/", title := "T",
          metadata := { depth := 0, wordCount := 5, language := "en",
                        scrapedAt := "2024-01-01" } },
        f.data.head? = some '"' ∧ f.data.getLast? = some '"') := by
  decide

/-- C8 (amended): every CSV row is the comma-join of exactly the six fields
url, title, depth, wordCount, language, scrapedAt, in that order and
matching the header line; the url and title fields are quoted with internal
double quotes doubled, while depth, wordCount, language and scrapedAt are
emitted raw. -/
theorem csvRow_fields (r : ScrapedContent) :
    csvRow r = String.intercalate "," (csvFields r) ∧
    (csvFields r).length = 6 ∧
    csvFields r = [escapeCSV r.url, escapeCSV r.title,
      natToString r.metadata.depth, natToString r.metadata.wordCount,
      r.metadata.language, r.metadata.scrapedAt] ∧
    (∀ v : String, escapeCSV v = String.mk ('"' ::
      v.data.flatMap (fun c => if c = '"' then ['"', '"'] else [c]) ++ ['"'])) ∧
    (∀ cfg : WriterConfig, cfg.format = Format.csv →
      (initializeStream cfg).fileText =
        "url,title,depth,wordCount,language,scrapedAt\n") := by
  refine ⟨rfl, rfl, rfl, ?_, ?_⟩
  · intro v
    rw [escapeCSV]
    split
    next hv =>
      rw [String.isEmpty_iff] at hv
      subst hv
      decide
    next => rfl
  · intro cfg hfmt
    rw [initializeStream, hfmt]

/-- Witness for the C8 theorem at a concrete record and configuration. -/
theorem csvRow_fields_witness :
    csvRow
      { url := "https://e.x/", title := "say \"hi\"",
        metadata := { depth := 1, wordCount := 2, language := "en",
                      scrapedAt := "2024" } } =
      String.intercalate ","
        (csvFields
          { url := "https://e.x/", title := "say \"hi\"",
            metadata := { depth := 1, wordCount := 2, language := "en",
                          scrapedAt := "2024" } }) ∧
    escapeCSV "say \"hi\"" = String.mk ('"' ::
      ("say \"hi\"").data.flatMap
        (fun c => if c = '"' then ['"', '"'] else [c]) ++ ['"']) ∧
    (initializeStream
      { jobId := "j", format := Format.csv,
        flushInterval := 100, maxBufferSize := 500 }).fileText =
      "url,title,depth,wordCount,language,scrapedAt\n" := by
  have h := csvRow_fields
    { url := "https://e.x/", title := "say \"hi\"",
      metadata := { depth := 1, wordCount := 2, language := "en",
                    scrapedAt := "2024" } : ScrapedContent }
  exact ⟨h.1, h.2.2.2.1 "say \"hi\"", h.2.2.2.2 _ rfl⟩

end CrawlScrap.StreamingWriter

namespace CrawlScrap.Scraper

/-- C9 counterexample: on `"pero dans"` the Spanish and French scores tie
for the maximum (1 each) while English scores 0, and `detectLanguage`
returns `"es"`, not English. -/
theorem detectLanguage_non_english_tie :
    languageScores "pero dans" =
      [("en", 0), ("es", 1), ("fr", 1), ("de", 0), ("pt", 0), ("it", 0)] ∧
    detectLanguage "pero dans" = "es" ∧ ("es" : String) ≠ "en" := by
  decide

theorem maxScoreSpec_pos_find (l : List (String × Nat))
    (h : 0 < maxScoreSpec l) :
    (l.find? (fun p => p.2 == maxScoreSpec l)).isSome := by
  induction l with
  | nil => simp [maxScoreSpec] at h
  | cons p l ih =>
    have hM : maxScoreSpec (p :: l) = max p.2 (maxScoreSpec l) := rfl
    by_cases hp : p.2 = maxScoreSpec (p :: l)
    · rw [List.find?_cons_of_pos _ (by simp [hp])]
      rfl
    · have hmsl : maxScoreSpec (p :: l) = maxScoreSpec l := by
        rw [hM] at hp ⊢
        omega
      rw [List.find?_cons_of_neg _ (by simp; omega)]
      rw [hmsl]
      exact ih (by rw [hmsl] at h; exact h)

theorem selectLoop_go_spec (l : List (String × Nat)) :
    ∀ acc : Nat × String,
    l.foldl (fun acc p => if p.2 > acc.1 then (p.2, p.1) else acc) acc =
      if maxScoreSpec l > acc.1 then
        (maxScoreSpec l,
         ((l.find? (fun p => p.2 == maxScoreSpec l)).map
           (fun p => p.1)).getD acc.2)
      else acc := by
  induction l with
  | nil => intro acc; simp [maxScoreSpec]
  | cons p l ih =>
    intro acc
    rw [List.foldl_cons]
    have hM : maxScoreSpec (p :: l) = max p.2 (maxScoreSpec l) := rfl
    by_cases hp : p.2 > acc.1
    · rw [if_pos hp, ih (p.2, p.1)]
      by_cases hl : maxScoreSpec l > p.2
      · have hM2 : maxScoreSpec (p :: l) = maxScoreSpec l := by rw [hM]; omega
        rw [if_pos hl, if_pos (by rw [hM2]; omega), hM2]
        rw [List.find?_cons_of_neg _ (by simp; omega)]
        obtain ⟨q, hq⟩ := Option.isSome_iff_exists.mp
          (maxScoreSpec_pos_find l (by omega))
        rw [hq]
        rfl
      · have hM2 : maxScoreSpec (p :: l) = p.2 := by rw [hM]; omega
        rw [if_neg hl, if_pos (by rw [hM2]; exact hp), hM2]
        rw [List.find?_cons_of_pos _ (by simp)]
        rfl
    · rw [if_neg hp, ih acc]
      by_cases hl : maxScoreSpec l > acc.1
      · have hM2 : maxScoreSpec (p :: l) = maxScoreSpec l := by rw [hM]; omega
        rw [if_pos hl, if_pos (by rw [hM2]; omega), hM2]
        rw [List.find?_cons_of_neg _ (by simp; omega)]
      · rw [if_neg hl, if_neg (by rw [hM]; omega)]

/-- C9 (amended): for text that is non-blank after trimming, `detectLanguage`
returns the first language in the order en, es, fr, de, pt, it whose
function-word score attains the maximum, when that maximum is positive (so
English wins a tie exactly when it is among the maximal languages, while a
tie among non-English languages yields the earliest of them, not English),
and returns `en` when no list matches at all; an empty text or a text that
is blank after trimming returns `unknown`, not the `en` default. -/
theorem detectLanguage_eq_first_max :
    (∀ text : String, isBlankText text = false →
      detectLanguage text = pickFirstMax (languageScores text)) ∧
    (∀ text : String, isBlankText text = true →
      detectLanguage text = "unknown") := by
  constructor
  · intro text h
    rw [detectLanguage, if_neg (by rw [h]; simp)]
    show (if (selectLoop (languageScores text)).1 > 0
      then (selectLoop (languageScores text)).2 else "en") = _
    rw [selectLoop, selectLoop_go_spec (languageScores text) (0, "en")]
    by_cases hm : maxScoreSpec (languageScores text) > 0
    · rw [if_pos hm, pickFirstMax, if_pos hm]
    · rw [if_neg hm, pickFirstMax, if_neg hm]
      rw [if_neg (show ¬ ((0 : Nat), "en").1 > 0 by omega)]
  · intro text h
    rw [detectLanguage, if_pos h]

/-- Witness for the C9 theorem: a concrete non-blank text on the first part,
and a text of JS whitespace (space, tab and a no-break space, which only the
JS trim set treats as blank) on the second. -/
theorem detectLanguage_eq_first_max_witness :
    (isBlankText "the cat and the dog" = false ∧
      detectLanguage "the cat and the dog" =
        pickFirstMax (languageScores "the cat and the dog")) ∧
    (isBlankText " \t " = true ∧
      detectLanguage " \t " = "unknown") :=
  ⟨⟨by decide,
    detectLanguage_eq_first_max.1 "the cat and the dog" (by decide)⟩,
   ⟨by decide, detectLanguage_eq_first_max.2 " \t " (by decide)⟩⟩

end CrawlScrap.Scraper

namespace CrawlScrap.Retry

theorem withRetryGo_success_spec {α : Type} (cfg : RetryConfig)
    (op : Nat → Except String α) (rand : Nat → Rat) (K : Nat) (v : α)
    (hK : K ≤ cfg.maxRetries)
    (hfail : ∀ k, 1 ≤ k → k ≤ K → ∃ m, op k = Except.error m ∧
      (classifyError cfg m none).isRetryable = true)
    (hok : op (K + 1) = Except.ok v) :
    ∀ d j sleeps le, j + d = K →
      withRetryGo cfg op rand (cfg.maxRetries + 1 - j) j sleeps le =
        { success := true, result := some v, error := none, attempts := K + 1,
          sleeps := sleeps ++ (List.range' j d).map
            (fun k => calculateRetryDelay cfg k (rand (k + 1))) } := by
  intro d
  induction d with
  | zero =>
    intro j sleeps le hj
    have hjK : j = K := by omega
    subst hjK
    obtain ⟨f, hf⟩ : ∃ f, cfg.maxRetries + 1 - j = f + 1 :=
      ⟨cfg.maxRetries - j, by omega⟩
    rw [hf]
    simp only [withRetryGo, hok]
    simp
  | succ d ih =>
    intro j sleeps le hj
    have hjK : j < K := by omega
    obtain ⟨m, hm, hret⟩ := hfail (j + 1) (by omega) (by omega)
    obtain ⟨f, hf⟩ : ∃ f, cfg.maxRetries + 1 - j = f + 1 :=
      ⟨cfg.maxRetries - j, by omega⟩
    have hfne : f ≠ 0 := by omega
    rw [hf]
    simp only [withRetryGo, hm, hret, Bool.not_true, Bool.false_eq_true,
      if_false, if_neg hfne]
    have hff : f = cfg.maxRetries + 1 - (j + 1) := by omega
    rw [hff, ih (j + 1) _ _ (by omega)]
    rw [List.range'_succ]
    simp

theorem withRetryGo_allfail_spec {α : Type} (cfg : RetryConfig)
    (op : Nat → Except String α) (rand : Nat → Rat)
    (hfail : ∀ k, 1 ≤ k → ∃ m, op k = Except.error m ∧
      (classifyError cfg m none).isRetryable = true) :
    ∀ d j sleeps le, j + d = cfg.maxRetries →
      (withRetryGo cfg op rand (cfg.maxRetries + 1 - j) j sleeps le).success
        = false ∧
      (withRetryGo cfg op rand (cfg.maxRetries + 1 - j) j sleeps le).attempts
        = cfg.maxRetries + 1 ∧
      (withRetryGo cfg op rand (cfg.maxRetries + 1 - j) j sleeps le).sleeps
        = sleeps ++ (List.range' j d).map
            (fun k => calculateRetryDelay cfg k (rand (k + 1))) := by
  intro d
  induction d with
  | zero =>
    intro j sleeps le hj
    have hjK : j = cfg.maxRetries := by omega
    obtain ⟨m, hm, hret⟩ := hfail (j + 1) (by omega)
    have hf : cfg.maxRetries + 1 - j = 0 + 1 := by omega
    rw [hf]
    simp only [withRetryGo, hm, hret, Bool.not_true, Bool.false_eq_true,
      if_false, if_pos rfl]
    simp [hjK]
  | succ d ih =>
    intro j sleeps le hj
    obtain ⟨m, hm, hret⟩ := hfail (j + 1) (by omega)
    obtain ⟨f, hf⟩ : ∃ f, cfg.maxRetries + 1 - j = f + 1 :=
      ⟨cfg.maxRetries - j, by omega⟩
    have hfne : f ≠ 0 := by omega
    rw [hf]
    simp only [withRetryGo, hm, hret, Bool.not_true, Bool.false_eq_true,
      if_false, if_neg hfne]
    have hff : f = cfg.maxRetries + 1 - (j + 1) := by omega
    rw [hff]
    obtain ⟨h1, h2, h3⟩ := ih (j + 1) (sleeps ++
      [calculateRetryDelay cfg j (rand (j + 1))]) (some m) (by omega)
    refine ⟨?_, ?_, ?_⟩
    · exact h1
    · exact h2
    · simp only [Nat.add_sub_cancel]
      rw [h3, List.range'_succ]
      simp

/-- C4: `withRetry` sleeps `round(min(initialDelayMs * multiplier^attempt,
maxDelayMs))` (plus jitter, zero here) before the retry following failed
attempt `attempt + 1`, gives up after `maxRetries` additional attempts, and
on the 503-503-success scenario with `maxRetries = 2`, `initialDelayMs =
100`, `multiplier = 2`, `jitter = 0` returns success with `attempts = 3`
after sleeping `100` then `200` ms. -/
theorem withRetry_backoff_and_scenario :
    (∀ (cfg : RetryConfig) (attempt : Nat) (r : Rat), cfg.jitter = 0 →
      calculateRetryDelay cfg attempt r =
        round (min (cfg.initialDelayMs * cfg.backoffMultiplier ^ attempt)
          cfg.maxDelayMs)) ∧
    (∀ (α : Type) (cfg : RetryConfig) (op : Nat → Except String α)
      (rand : Nat → Rat) (K : Nat) (v : α), K ≤ cfg.maxRetries →
      (∀ k, 1 ≤ k → k ≤ K → ∃ m, op k = Except.error m ∧
        (classifyError cfg m none).isRetryable = true) →
      op (K + 1) = Except.ok v →
      withRetry cfg op rand =
        { success := true, result := some v, error := none,
          attempts := K + 1,
          sleeps := (List.range K).map
            (fun k => calculateRetryDelay cfg k (rand (k + 1))) }) ∧
    (∀ (α : Type) (cfg : RetryConfig) (op : Nat → Except String α)
      (rand : Nat → Rat),
      (∀ k, 1 ≤ k → ∃ m, op k = Except.error m ∧
        (classifyError cfg m none).isRetryable = true) →
      (withRetry cfg op rand).success = false ∧
      (withRetry cfg op rand).attempts = cfg.maxRetries + 1 ∧
      (withRetry cfg op rand).sleeps = (List.range cfg.maxRetries).map
        (fun k => calculateRetryDelay cfg k (rand (k + 1)))) ∧
    (withRetry
      { maxRetries := 2, initialDelayMs := 100, maxDelayMs := 10000,
        backoffMultiplier := 2, jitter := 0,
        retryableStatusCodes := RETRYABLE_STATUS_CODES,
        transientErrorPatterns := TRANSIENT_ERROR_PATTERNS }
      (fun k => if k ≤ 2 then Except.error "HTTP 503" else Except.ok 42)
      (fun _ => 0) =
      { success := true, result := some 42, error := none, attempts := 3,
        sleeps := [100, 200] }) := by
  have hjitter : ∀ (cfg : RetryConfig) (attempt : Nat) (r : Rat),
      cfg.jitter = 0 →
      calculateRetryDelay cfg attempt r =
        round (min (cfg.initialDelayMs * cfg.backoffMultiplier ^ attempt)
          cfg.maxDelayMs) := by
    intro cfg attempt r hj
    rw [calculateRetryDelay]
    rw [if_neg (by rw [hj]; simp)]
  have hsucc : ∀ (α : Type) (cfg : RetryConfig) (op : Nat → Except String α)
      (rand : Nat → Rat) (K : Nat) (v : α), K ≤ cfg.maxRetries →
      (∀ k, 1 ≤ k → k ≤ K → ∃ m, op k = Except.error m ∧
        (classifyError cfg m none).isRetryable = true) →
      op (K + 1) = Except.ok v →
      withRetry cfg op rand =
        { success := true, result := some v, error := none,
          attempts := K + 1,
          sleeps := (List.range K).map
            (fun k => calculateRetryDelay cfg k (rand (k + 1))) } := by
    intro α cfg op rand K v hK hfail hok
    have h := withRetryGo_success_spec cfg op rand K v hK hfail hok K 0 [] none
      (by omega)
    rw [withRetry, show cfg.maxRetries + 1 = cfg.maxRetries + 1 - 0 from rfl, h]
    rw [List.range_eq_range']
    simp
  refine ⟨hjitter, hsucc, ?_, ?_⟩
  · intro α cfg op rand hfail
    have h := withRetryGo_allfail_spec cfg op rand hfail cfg.maxRetries 0 []
      none (by omega)
    rw [withRetry] at *
    rw [show cfg.maxRetries + 1 = cfg.maxRetries + 1 - 0 from rfl]
    refine ⟨h.1, h.2.1, ?_⟩
    rw [h.2.2, List.range_eq_range']
    simp
  · rw [hsucc Nat _ _ _ 2 42 (by norm_num) ?_ (by norm_num)]
    · have hd0 : calculateRetryDelay
          { maxRetries := 2, initialDelayMs := 100, maxDelayMs := 10000,
            backoffMultiplier := 2, jitter := 0,
            retryableStatusCodes := RETRYABLE_STATUS_CODES,
            transientErrorPatterns := TRANSIENT_ERROR_PATTERNS } 0 0 = 100 := by
        rw [hjitter _ _ _ rfl]
        norm_num
      have hd1 : calculateRetryDelay
          { maxRetries := 2, initialDelayMs := 100, maxDelayMs := 10000,
            backoffMultiplier := 2, jitter := 0,
            retryableStatusCodes := RETRYABLE_STATUS_CODES,
            transientErrorPatterns := TRANSIENT_ERROR_PATTERNS } 1 0 = 200 := by
        rw [hjitter _ _ _ rfl]
        norm_num
      rw [show List.range 2 = [0, 1] from rfl]
      simp only [List.map_cons, List.map_nil, hd0, hd1]
    · intro k h1 h2
      interval_cases k
      · exact ⟨"HTTP 503", rfl, by decide⟩
      · exact ⟨"HTTP 503", rfl, by decide⟩

/-- Witness for the C4 theorem at concrete inputs: the jitter-free delay
formula at attempt `1` and the all-fail give-up bound for an operation that
always times out. -/
theorem withRetry_backoff_witness :
    calculateRetryDelay
      { maxRetries := 2, initialDelayMs := 100, maxDelayMs := 10000,
        backoffMultiplier := 2, jitter := 0,
        retryableStatusCodes := RETRYABLE_STATUS_CODES,
        transientErrorPatterns := TRANSIENT_ERROR_PATTERNS } 1 0 =
      round (min ((100 : Rat) * 2 ^ 1) 10000) ∧
    (withRetry (α := Nat)
      { maxRetries := 2, initialDelayMs := 100, maxDelayMs := 10000,
        backoffMultiplier := 2, jitter := 0,
        retryableStatusCodes := RETRYABLE_STATUS_CODES,
        transientErrorPatterns := TRANSIENT_ERROR_PATTERNS }
      (fun _ => Except.error "timeout") (fun _ => 0)).attempts = 2 + 1 := by
  constructor
  · exact withRetry_backoff_and_scenario.1 _ 1 0 rfl
  · exact (withRetry_backoff_and_scenario.2.2.1 Nat _ _ _
      (fun k _ => ⟨"timeout", rfl, by decide⟩)).2.1

end CrawlScrap.Retry

namespace CrawlScrap.StreamingWriter

theorem expectLit_append (a s : List Char) : expectLit a (a ++ s) = some s := by
  induction a with
  | nil => rfl
  | cons c a ih => simp [expectLit, ih]

theorem digit_facts : ∀ m, m < 10 →
    isDigitCh (digitChar m) = true ∧ (digitChar m).toNat - 48 = m := by
  decide

theorem digitsAux_all_digits : ∀ n, ∀ c ∈ digitsAux n, isDigitCh c = true := by
  intro n
  induction n using Nat.strong_induction_on with
  | _ n ih =>
    match n with
    | 0 => intro c hc; simp [digitsAux] at hc
    | m + 1 =>
      intro c hc
      rw [digitsAux] at hc
      rcases List.mem_append.mp hc with hc | hc
      · exact ih ((m + 1) / 10) (Nat.div_lt_self (Nat.succ_pos m) (by norm_num))
          c hc
      · simp only [List.mem_singleton] at hc
        subst hc
        exact (digit_facts _ (Nat.mod_lt _ (by norm_num))).1

theorem digitsAux_ne_nil (n : Nat) (h : 0 < n) : digitsAux n ≠ [] := by
  match n with
  | m + 1 =>
    rw [digitsAux]
    simp

theorem parseNatGo_digitsAux : ∀ n acc rest,
    parseNatGo acc (digitsAux n ++ rest) =
      parseNatGo (acc * 10 ^ (digitsAux n).length + n) rest := by
  intro n
  induction n using Nat.strong_induction_on with
  | _ n ih =>
    match n with
    | 0 =>
      intro acc rest
      simp [digitsAux]
    | m + 1 =>
      intro acc rest
      rw [digitsAux, List.append_assoc,
        ih ((m + 1) / 10) (Nat.div_lt_self (Nat.succ_pos m) (by norm_num))]
      have hd := digit_facts ((m + 1) % 10) (Nat.mod_lt _ (by norm_num))
      rw [List.singleton_append, parseNatGo, if_pos hd.1, hd.2]
      have harith : (acc * 10 ^ (digitsAux ((m + 1) / 10)).length + (m + 1) / 10)
          * 10 + (m + 1) % 10 =
          acc * 10 ^ (digitsAux ((m + 1) / 10)).length * 10 + (m + 1) := by
        have := Nat.div_add_mod (m + 1) 10
        ring_nf
        omega
      rw [harith]
      simp only [List.length_append, List.length_cons, List.length_nil,
        pow_succ]
      congr 1
      ring

theorem parseNat_natToString (n : Nat) (rest : List Char)
    (hrest : ∀ c cs, rest = c :: cs → isDigitCh c = false) :
    parseNat ((natToString n).data ++ rest) = some (n, rest) := by
  have hstop : parseNatGo n rest = (n, rest) := by
    cases rest with
    | nil => rfl
    | cons c cs =>
      rw [parseNatGo, if_neg (by rw [hrest c cs rfl]; simp)]
  by_cases hn : n = 0
  · subst hn
    show parseNat ('0' :: rest) = some (0, rest)
    rw [parseNat, if_pos (by decide)]
    rw [parseNatGo, if_pos (by decide)]
    rw [show (0 : Nat) * 10 + ('0'.toNat - 48) = 0 by decide]
    rw [hstop]
  · have hpos : 0 < n := Nat.pos_of_ne_zero hn
    have hdata : (natToString n).data = digitsAux n := by
      rw [natToString, if_neg hn]
    rw [hdata]
    cases hda : digitsAux n with
    | nil => exact absurd hda (digitsAux_ne_nil n hpos)
    | cons c t =>
      have hc : isDigitCh c = true :=
        digitsAux_all_digits n c (by rw [hda]; exact List.mem_cons_self c t)
      rw [List.cons_append, parseNat, if_pos hc]
      rw [show c :: (t ++ rest) = digitsAux n ++ rest by
        rw [hda, List.cons_append]]
      rw [parseNatGo_digitsAux]
      rw [show 0 * 10 ^ (digitsAux n).length + n = n by ring]
      rw [hstop]

end CrawlScrap.StreamingWriter

namespace CrawlScrap.StreamingWriter

theorem hexVal_hexDigit : ∀ m, m < 16 → hexVal (hexDigit m) = some m := by
  decide

theorem parseJsonString_escape : ∀ (cs rest : List Char),
    parseJsonString (cs.flatMap escChar ++ '"' :: rest) = some (cs, rest) := by
  intro cs
  induction cs with
  | nil =>
    intro rest
    rw [List.flatMap_nil, List.nil_append, parseJsonString.eq_def]
    simp
  | cons c cs ih =>
    intro rest
    rw [List.flatMap_cons, List.append_assoc]
    by_cases h1 : c = '"'
    · subst h1
      rw [show escChar '"' = ['\\', '"'] from by simp [escChar]]
      simp only [List.cons_append, List.nil_append]
      rw [parseJsonString.eq_def]
      simp [ih]
    · by_cases h2 : c = '\\'
      · subst h2
        rw [show escChar '\\' = ['\\', '\\'] from by simp [escChar]]
        simp only [List.cons_append, List.nil_append]
        rw [parseJsonString.eq_def]
        simp [ih]
      · by_cases h3 : c = Char.ofNat 8
        · subst h3
          rw [show escChar (Char.ofNat 8) = ['\\', 'b'] from by simp [escChar]]
          simp only [List.cons_append, List.nil_append]
          rw [parseJsonString.eq_def]
          simp [ih]
        · by_cases h4 : c = '\t'
          · subst h4
            rw [show escChar '\t' = ['\\', 't'] from by simp [escChar]]
            simp only [List.cons_append, List.nil_append]
            rw [parseJsonString.eq_def]
            simp [ih]
          · by_cases h5 : c = '\n'
            · subst h5
              rw [show escChar '\n' = ['\\', 'n'] from by simp [escChar]]
              simp only [List.cons_append, List.nil_append]
              rw [parseJsonString.eq_def]
              simp [ih]
            · by_cases h6 : c = Char.ofNat 12
              · subst h6
                rw [show escChar (Char.ofNat 12) = ['\\', 'f'] from by
                  simp [escChar]]
                simp only [List.cons_append, List.nil_append]
                rw [parseJsonString.eq_def]
                simp [ih]
              · by_cases h7 : c = Char.ofNat 13
                · subst h7
                  rw [show escChar (Char.ofNat 13) = ['\\', 'r'] from by
                    simp [escChar]]
                  simp only [List.cons_append, List.nil_append]
                  rw [parseJsonString.eq_def]
                  simp [ih]
                · by_cases h8 : c.toNat < 32
                  · have hesc : escChar c = '\\' :: 'u' :: hex4 c.toNat := by
                      rw [escChar, if_neg h1, if_neg h2, if_neg h3, if_neg h4,
                        if_neg h5, if_neg h6, if_neg h7, if_pos h8]
                    have hn : ((0 * 16 + 0) * 16 + c.toNat / 16) * 16 +
                        c.toNat % 16 = c.toNat := by omega
                    have hv : (c.toNat).isValidChar := Or.inl (by omega)
                    rw [hesc, hex4]
                    simp only [List.cons_append]
                    rw [parseJsonString.eq_def]
                    simp [show hexVal '0' = some 0 from by decide,
                      hexVal_hexDigit (c.toNat / 16) (by omega),
                      hexVal_hexDigit (c.toNat % 16) (by omega),
                      hn, hv, Char.ofNat_toNat, ih]
                    rw [show c.toNat / 16 * 16 + c.toNat % 16 = c.toNat from
                      by omega]
                    exact ⟨hv, Char.ofNat_toNat c⟩
                  · have hesc : escChar c = [c] := by
                      rw [escChar, if_neg h1, if_neg h2, if_neg h3, if_neg h4,
                        if_neg h5, if_neg h6, if_neg h7, if_neg h8]
                    rw [hesc, List.singleton_append, parseJsonString.eq_def]
                    simp [h1, h2, ih]

end CrawlScrap.StreamingWriter

namespace CrawlScrap.StreamingWriter

theorem expectLit_split (a b s : List Char) :
    expectLit (a ++ b) s = (expectLit a s).bind (expectLit b) := by
  induction a generalizing s with
  | nil => simp [expectLit]
  | cons c a ih =>
    cases s with
    | nil => simp [expectLit]
    | cons d s =>
      simp only [List.cons_append, expectLit]
      split
      · exact ih s
      · simp

theorem string_segment (a : List Char) (u : String) (X : List Char) :
    expectLit (a ++ ['"']) (a ++ (jsonQuote u ++ X)) =
      some (u.data.flatMap escChar ++ ('"' :: X)) := by
  rw [expectLit_split, expectLit_append]
  show expectLit ['"'] (jsonQuote u ++ X) = _
  rw [jsonQuote, jsonEscape]
  simp [expectLit, List.append_assoc]

theorem parseNat_natToString_cons (n : Nat) (c : Char) (cs : List Char)
    (h : isDigitCh c = false) :
    parseNat ((natToString n).data ++ (c :: cs)) = some (n, c :: cs) :=
  parseNat_natToString n (c :: cs) (fun d ds hd => by
    injection hd with h1 _
    subst h1
    exact h)

theorem string_mk_data (s : String) : String.mk s.data = s := rfl

theorem decodeRecord_jsonStringify (r : ScrapedContent) :
    decodeRecord (jsonStringify r).data = some r := by
  obtain ⟨url, title, md⟩ := r
  obtain ⟨depth, wordCount, language, scrapedAt⟩ := md
  have hinput : (jsonStringify
      ⟨url, title, ⟨depth, wordCount, language, scrapedAt⟩⟩).data =
      "\x7b\"url\":".data ++ (jsonQuote url ++ (",\"title\":".data ++
        (jsonQuote title ++ (",\"metadata\":\x7b\"depth\":".data ++
          ((natToString depth).data ++ (",\"wordCount\":".data ++
            ((natToString wordCount).data ++ (",\"language\":".data ++
              (jsonQuote language ++ (",\"scrapedAt\":".data ++
                (jsonQuote scrapedAt ++ "\x7d\x7d".data))))))))))) := by
    show ("\x7b\"url\":".data) ++ jsonQuote url ++ (",\"title\":".data) ++
      jsonQuote title ++ (",\"metadata\":\x7b\"depth\":".data) ++
      (natToString depth).data ++ (",\"wordCount\":".data) ++
      (natToString wordCount).data ++ (",\"language\":".data) ++
      jsonQuote language ++ (",\"scrapedAt\":".data) ++
      jsonQuote scrapedAt ++ ("\x7d\x7d".data) = _
    simp only [List.append_assoc]
  rw [decodeRecord, hinput]
  simp only [Option.bind_eq_bind, Option.some_bind, jsonQuote, jsonEscape,
    List.append_eq, List.cons_append, List.nil_append, List.append_assoc,
    List.singleton_append, expectLit, parseJsonString_escape,
    parseNat_natToString_cons, show isDigitCh ',' = false from by decide,
    string_mk_data, List.isEmpty_nil, reduceIte]

theorem string_ext (a b : String) (h : a.data = b.data) : a = b := by
  cases a
  cases b
  exact congrArg String.mk h

theorem hexDigit_ne_newline (m : Nat) (h : m < 16) : hexDigit m ≠ '\n' := by
  interval_cases m <;> decide

theorem newline_not_mem_escChar (c : Char) : '\n' ∉ escChar c := by
  unfold escChar
  split
  · decide
  split
  · decide
  split
  · decide
  split
  · decide
  split
  · decide
  split
  · decide
  split
  · decide
  split
  next hlt =>
    intro hmem
    simp [hex4] at hmem
    rcases hmem with h0 | h0
    · exact hexDigit_ne_newline _ (by omega) h0.symm
    · exact hexDigit_ne_newline _ (by omega) h0.symm
  next =>
    intro hmem
    simp at hmem
    subst hmem
    simp_all

theorem newline_not_mem_natToString (n : Nat) : '\n' ∉ (natToString n).data := by
  unfold natToString
  split
  · decide
  · intro h
    have hd := digitsAux_all_digits n '\n' h
    exact absurd hd (by decide)

theorem newline_not_mem_jsonQuote (s : String) : '\n' ∉ jsonQuote s := by
  intro h
  simp [jsonQuote, jsonEscape, List.mem_flatMap] at h
  obtain ⟨a, _, ha⟩ := h
  exact newline_not_mem_escChar a ha

theorem newline_not_mem_jsonStringify (r : ScrapedContent) :
    '\n' ∉ (jsonStringify r).data := by
  intro h
  simp only [jsonStringify, List.mem_append] at h
  rcases h with ((((((((((((h | h) | h) | h) | h) | h) | h) | h) | h) | h) | h) | h) | h)
  · exact absurd h (by decide)
  · exact newline_not_mem_jsonQuote _ h
  · exact absurd h (by decide)
  · exact newline_not_mem_jsonQuote _ h
  · exact absurd h (by decide)
  · exact newline_not_mem_natToString _ h
  · exact absurd h (by decide)
  · exact newline_not_mem_natToString _ h
  · exact absurd h (by decide)
  · exact newline_not_mem_jsonQuote _ h
  · exact absurd h (by decide)
  · exact newline_not_mem_jsonQuote _ h
  · exact absurd h (by decide)

theorem lineChunks_append (line rest : List Char) (h : '\n' ∉ line) :
    lineChunks (line ++ '\n' :: rest) = line :: lineChunks rest := by
  induction line with
  | nil => simp [lineChunks]
  | cons c cs ih =>
    have hc : c ≠ '\n' := by
      intro he
      exact h (by simp [he])
    have h2 : '\n' ∉ cs := fun hm => h (List.mem_cons_of_mem _ hm)
    show lineChunks (c :: (cs ++ '\n' :: rest)) = (c :: cs) :: lineChunks rest
    simp only [lineChunks]
    rw [if_neg hc, ih h2]

theorem jsonlRender_cons (r : ScrapedContent) (t : List ScrapedContent) :
    jsonlRender (r :: t) = jsonStringify r ++ "\n" ++ jsonlRender t := rfl

theorem jsonlRender_append (a b : List ScrapedContent) :
    jsonlRender (a ++ b) = jsonlRender a ++ jsonlRender b := by
  induction a with
  | nil =>
    show jsonlRender b = "" ++ jsonlRender b
    rw [String.empty_append]
  | cons r t ih =>
    show jsonStringify r ++ "\n" ++ jsonlRender (t ++ b) = _
    rw [ih, jsonlRender_cons]
    simp only [String.append_assoc]

theorem lineChunks_jsonlRender (rs : List ScrapedContent) :
    lineChunks (jsonlRender rs).data = rs.map (fun r => (jsonStringify r).data) := by
  induction rs with
  | nil => rfl
  | cons r t ih =>
    rw [jsonlRender_cons]
    rw [show (jsonStringify r ++ "\n" ++ jsonlRender t).data =
        (jsonStringify r).data ++ '\n' :: (jsonlRender t).data from by
      simp [String.data_append]]
    rw [lineChunks_append _ _ (newline_not_mem_jsonStringify r), ih]
    rfl

theorem decodeFile_jsonlRender (rs : List ScrapedContent) :
    decodeFile (jsonlRender rs) = some rs := by
  have key : ∀ l : List ScrapedContent,
      (l.map (fun r => (jsonStringify r).data)).mapM decodeRecord = some l := by
    intro l
    induction l with
    | nil => rfl
    | cons r t ih =>
      simp only [List.map_cons, List.mapM_cons, decodeRecord_jsonStringify, ih,
        Option.bind_eq_bind, Option.some_bind]
      rfl
  unfold decodeFile
  rw [lineChunks_jsonlRender]
  exact key rs

theorem writeResult_jsonl (cfg : WriterConfig) (hfmt : cfg.format = .jsonl)
    (st : WriterState) (r : ScrapedContent) :
    writeResult cfg st r =
      { st with fileText := st.fileText ++ jsonStringify r ++ "\n" } := by
  unfold writeResult
  rw [hfmt]

theorem writeResult_resultCount (cfg : WriterConfig) (st : WriterState)
    (r : ScrapedContent) : (writeResult cfg st r).resultCount = st.resultCount := by
  unfold writeResult
  cases cfg.format <;> rfl

theorem foldl_writeResult_jsonl (cfg : WriterConfig) (hfmt : cfg.format = .jsonl) :
    ∀ (l : List ScrapedContent) (st : WriterState),
      l.foldl (writeResult cfg) st =
        { st with fileText := st.fileText ++ jsonlRender l } := by
  intro l
  induction l with
  | nil =>
    intro st
    show st = { st with fileText := st.fileText ++ "" }
    rw [String.append_empty]
  | cons r t ih =>
    intro st
    show t.foldl (writeResult cfg) (writeResult cfg st r) = _
    rw [ih, writeResult_jsonl cfg hfmt, jsonlRender_cons]
    show ({ st with fileText := st.fileText ++ jsonStringify r ++ "\n" ++ jsonlRender t } :
        WriterState) = _
    rw [show st.fileText ++ jsonStringify r ++ "\n" ++ jsonlRender t =
        st.fileText ++ (jsonStringify r ++ "\n" ++ jsonlRender t) from by
      simp only [String.append_assoc]]

theorem flush_jsonl (cfg : WriterConfig) (hfmt : cfg.format = .jsonl)
    (st : WriterState) :
    flush cfg st =
      { st with buffer := [],
                fileText := st.fileText ++ jsonlRender st.buffer } := by
  unfold flush
  split
  next h =>
    obtain ⟨buf, ft, rc, fw⟩ := st
    have hb : buf = [] := by simpa [List.isEmpty_iff] using h
    subst hb
    show ({ buffer := [], fileText := ft, resultCount := rc, isFirstWrite := fw } :
        WriterState) = _
    rw [show ft ++ jsonlRender [] = ft from String.append_empty ft]
  next =>
    rw [foldl_writeResult_jsonl cfg hfmt]

theorem write_resultCount (cfg : WriterConfig) (hfmt : cfg.format = .jsonl)
    (st : WriterState) (r : ScrapedContent) :
    (write cfg st r).resultCount = st.resultCount + 1 := by
  simp only [write]
  split
  · rw [flush_jsonl cfg hfmt]
  · rfl

theorem write_virtual_jsonl (cfg : WriterConfig) (hfmt : cfg.format = .jsonl)
    (st : WriterState) (r : ScrapedContent) :
    (write cfg st r).fileText ++ jsonlRender (write cfg st r).buffer =
      (st.fileText ++ jsonlRender st.buffer) ++ jsonlRender [r] := by
  have hcomm : st.fileText ++ jsonlRender (st.buffer ++ [r]) =
      st.fileText ++ jsonlRender st.buffer ++ jsonlRender [r] := by
    rw [jsonlRender_append]
    simp only [String.append_assoc]
  simp only [write]
  split
  · rw [flush_jsonl cfg hfmt]
    show (st.fileText ++ jsonlRender (st.buffer ++ [r])) ++ jsonlRender [] = _
    rw [show jsonlRender ([] : List ScrapedContent) = "" from rfl,
      String.append_empty]
    exact hcomm
  · exact hcomm

theorem foldl_write_jsonl (cfg : WriterConfig) (hfmt : cfg.format = .jsonl) :
    ∀ (rs : List ScrapedContent) (st : WriterState),
      (rs.foldl (write cfg) st).fileText ++
          jsonlRender (rs.foldl (write cfg) st).buffer =
        (st.fileText ++ jsonlRender st.buffer) ++ jsonlRender rs ∧
      (rs.foldl (write cfg) st).resultCount = st.resultCount + rs.length := by
  intro rs
  induction rs with
  | nil =>
    intro st
    exact ⟨(String.append_empty _).symm, rfl⟩
  | cons r t ih =>
    intro st
    obtain ⟨h1, h2⟩ := ih (write cfg st r)
    constructor
    · show (t.foldl (write cfg) (write cfg st r)).fileText ++
          jsonlRender (t.foldl (write cfg) (write cfg st r)).buffer =
        (st.fileText ++ jsonlRender st.buffer) ++ jsonlRender (r :: t)
      rw [h1, write_virtual_jsonl cfg hfmt,
        show jsonlRender (r :: t) = jsonlRender [r] ++ jsonlRender t from
          jsonlRender_append [r] t]
      simp only [String.append_assoc]
    · show (t.foldl (write cfg) (write cfg st r)).resultCount =
        st.resultCount + (r :: t).length
      rw [h2, write_resultCount cfg hfmt]
      simp only [List.length_cons]
      omega

theorem close_jsonl (cfg : WriterConfig) (hfmt : cfg.format = .jsonl)
    (st : WriterState) :
    close cfg st =
      (flush cfg st,
       { jobId := cfg.jobId, format := Format.jsonl,
         totalResults := (flush cfg st).resultCount }) := by
  simp only [close, hfmt]

theorem run_fileText_jsonl (cfg : WriterConfig) (hfmt : cfg.format = .jsonl)
    (rs : List ScrapedContent) :
    (close cfg (rs.foldl (write cfg) (initializeStream cfg))).1.fileText
        = jsonlRender rs ∧
    (close cfg (rs.foldl (write cfg) (initializeStream cfg))).2.totalResults
        = rs.length := by
  obtain ⟨h1, h2⟩ := foldl_write_jsonl cfg hfmt rs (initializeStream cfg)
  have hft : (initializeStream cfg).fileText = "" := by
    simp only [initializeStream, hfmt]
  have hbuf : (initializeStream cfg).buffer = [] := rfl
  have hrc : (initializeStream cfg).resultCount = 0 := rfl
  rw [hft, hbuf, show jsonlRender ([] : List ScrapedContent) = "" from rfl] at h1
  simp only [String.empty_append] at h1
  rw [hrc] at h2
  rw [close_jsonl cfg hfmt, flush_jsonl cfg hfmt]
  constructor
  · exact h1
  · show (rs.foldl (write cfg) (initializeStream cfg)).resultCount = rs.length
    rw [h2]
    exact Nat.zero_add rs.length

/-- C7: for a `jsonl`-format writer, writing any sequence of records through
`write` and then calling `close` leaves a file that decodes back to exactly
that sequence in emission order, whose line count equals the number of
records, and whose sibling metadata reports `totalResults` equal to that
number. -/
theorem writer_jsonl_roundtrip (cfg : WriterConfig) (rs : List ScrapedContent)
    (hfmt : cfg.format = Format.jsonl) :
    decodeFile
        (close cfg (rs.foldl (write cfg) (initializeStream cfg))).1.fileText
      = some rs ∧
    (lineChunks
        (close cfg (rs.foldl (write cfg)
          (initializeStream cfg))).1.fileText.data).length = rs.length ∧
    (close cfg (rs.foldl (write cfg) (initializeStream cfg))).2.totalResults
      = rs.length := by
  obtain ⟨hft, hmeta⟩ := run_fileText_jsonl cfg hfmt rs
  refine ⟨?_, ?_, hmeta⟩
  · rw [hft, decodeFile_jsonlRender]
  · rw [hft, lineChunks_jsonlRender, List.length_map]

/-- Witness for C7 at a concrete configuration and two concrete records. -/
theorem writer_jsonl_roundtrip_witness :
    ({ jobId := "job-1", format := Format.jsonl, flushInterval := 1,
       maxBufferSize := 2 } : WriterConfig).format = Format.jsonl ∧
    (decodeFile
        (close { jobId := "job-1", format := Format.jsonl, flushInterval := 1,
                 maxBufferSize := 2 }
          ([{ url := "https://a.example/x", title := "A \"quoted\" title",
              metadata := { depth := 0, wordCount := 12, language := "en",
                            scrapedAt := "2024-01-01T00:00:00.000Z" } },
            { url := "https://b.example/y", title := "",
              metadata := { depth := 2, wordCount := 345, language := "fr",
                            scrapedAt := "2024-01-02T00:00:00.000Z" } }].foldl
            (write { jobId := "job-1", format := Format.jsonl,
                     flushInterval := 1, maxBufferSize := 2 })
            (initializeStream { jobId := "job-1", format := Format.jsonl,
                                flushInterval := 1,
                                maxBufferSize := 2 }))).1.fileText
      = some
          [{ url := "https://a.example/x", title := "A \"quoted\" title",
             metadata := { depth := 0, wordCount := 12, language := "en",
                           scrapedAt := "2024-01-01T00:00:00.000Z" } },
           { url := "https://b.example/y", title := "",
             metadata := { depth := 2, wordCount := 345, language := "fr",
                           scrapedAt := "2024-01-02T00:00:00.000Z" } }] ∧
    (lineChunks
        (close { jobId := "job-1", format := Format.jsonl, flushInterval := 1,
                 maxBufferSize := 2 }
          ([{ url := "https://a.example/x", title := "A \"quoted\" title",
              metadata := { depth := 0, wordCount := 12, language := "en",
                            scrapedAt := "2024-01-01T00:00:00.000Z" } },
            { url := "https://b.example/y", title := "",
              metadata := { depth := 2, wordCount := 345, language := "fr",
                            scrapedAt := "2024-01-02T00:00:00.000Z" } }].foldl
            (write { jobId := "job-1", format := Format.jsonl,
                     flushInterval := 1, maxBufferSize := 2 })
            (initializeStream { jobId := "job-1", format := Format.jsonl,
                                flushInterval := 1,
                                maxBufferSize := 2 }))).1.fileText.data).length
      = 2 ∧
    (close { jobId := "job-1", format := Format.jsonl, flushInterval := 1,
             maxBufferSize := 2 }
        ([{ url := "https://a.example/x", title := "A \"quoted\" title",
            metadata := { depth := 0, wordCount := 12, language := "en",
                          scrapedAt := "2024-01-01T00:00:00.000Z" } },
          { url := "https://b.example/y", title := "",
            metadata := { depth := 2, wordCount := 345, language := "fr",
                          scrapedAt := "2024-01-02T00:00:00.000Z" } }].foldl
          (write { jobId := "job-1", format := Format.jsonl,
                   flushInterval := 1, maxBufferSize := 2 })
          (initializeStream { jobId := "job-1", format := Format.jsonl,
                              flushInterval := 1,
                              maxBufferSize := 2 }))).2.totalResults = 2) :=
  ⟨rfl, writer_jsonl_roundtrip
    { jobId := "job-1", format := Format.jsonl, flushInterval := 1,
      maxBufferSize := 2 }
    [{ url := "https://a.example/x", title := "A \"quoted\" title",
       metadata := { depth := 0, wordCount := 12, language := "en",
                     scrapedAt := "2024-01-01T00:00:00.000Z" } },
     { url := "https://b.example/y", title := "",
       metadata := { depth := 2, wordCount := 345, language := "fr",
                     scrapedAt := "2024-01-02T00:00:00.000Z" } }] rfl⟩

end CrawlScrap.StreamingWriter
